import Mathlib

/-!
Verification development for the local-AI Raycast extension's core:
the SSE stream decoder (src/lib/streaming.ts), the tool orchestrator
(src/lib/tools.ts) and the transport client (src/lib/api.ts).

Strings manipulated character-by-character by the decoder are modelled as
`List Char` (the `TextDecoder` byte-to-text layer is transparent at this
level: a byte partition of the payload corresponds to a partition of the
character sequence).  Orchestrator- and transport-level strings are Lean
`String`s.
-/

/-- Character-list strings for the decoder model. -/
abbrev Chars := List Char

/-- The whitespace set removed by JavaScript `String.prototype.trim`
(WhiteSpace plus LineTerminator code points). -/
def jsWhitespace : List Char :=
  [' ', '\t', '\n', '\r', '\x0b', '\x0c',
   '\u00A0', '\u1680', '\u2000', '\u2001', '\u2002', '\u2003', '\u2004',
   '\u2005', '\u2006', '\u2007', '\u2008', '\u2009', '\u200A', '\u2028',
   '\u2029', '\u202F', '\u205F', '\u3000', '\uFEFF']

/-- Is this a JS-trim whitespace character? -/
def isJsWS (c : Char) : Bool := jsWhitespace.contains c

/-- Model of JavaScript `s.trim()`: strip whitespace from both ends. -/
def jsTrim (s : Chars) : Chars :=
  ((s.dropWhile isJsWS).reverse.dropWhile isJsWS).reverse

/-- Model of `buffer.split("\n")` followed by `buffer = lines.pop()`:
returns the complete lines (segments before each newline) and the
remainder after the last newline. -/
def splitNL : Chars → List Chars × Chars
  | [] => ([], [])
  | c :: rest =>
    if c = '\n' then
      ([] :: (splitNL rest).1, (splitNL rest).2)
    else
      match splitNL rest with
      | ([], r) => ([], c :: r)
      | (l :: ls, r) => ((c :: l) :: ls, r)

/-- JSON values as produced by `JSON.parse`.  Numbers keep their source
lexeme (none of the verified code does arithmetic on them). -/
inductive Json where
  | null
  | bool (b : Bool)
  | num (lexeme : Chars)
  | str (s : Chars)
  | arr (elems : List Json)
  | obj (fields : List (Chars × Json))

/-- JSON insignificant whitespace (space, tab, newline, carriage return). -/
def isJsonWS (c : Char) : Bool :=
  c == ' ' || c == '\t' || c == '\n' || c == '\r'

/-- Skip JSON whitespace. -/
def skipWS (s : Chars) : Chars := s.dropWhile isJsonWS

/-- Hexadecimal digit value. -/
def hexVal (c : Char) : Option Nat :=
  if '0' ≤ c ∧ c ≤ '9' then some (c.toNat - 48)
  else if 'a' ≤ c ∧ c ≤ 'f' then some (c.toNat - 87)
  else if 'A' ≤ c ∧ c ≤ 'F' then some (c.toNat - 55)
  else none

/-- Parse the body of a JSON string (after the opening quote), returning
the decoded characters and the input after the closing quote.  Raw
control characters are invalid; the standard escapes are decoded. -/
def parseStrBody : Nat → Chars → Option (Chars × Chars)
  | 0, _ => none
  | _, [] => none
  | fuel + 1, c :: rest =>
    if c = '"' then some ([], rest)
    else if c = '\\' then
      match rest with
      | [] => none
      | e :: rest2 =>
        let esc : Option (Char × Chars) :=
          if e = '"' then some ('"', rest2)
          else if e = '\\' then some ('\\', rest2)
          else if e = '/' then some ('/', rest2)
          else if e = 'b' then some ('\x08', rest2)
          else if e = 'f' then some ('\x0c', rest2)
          else if e = 'n' then some ('\n', rest2)
          else if e = 'r' then some ('\r', rest2)
          else if e = 't' then some ('\t', rest2)
          else if e = 'u' then
            match rest2 with
            | h1 :: h2 :: h3 :: h4 :: rest3 =>
              match hexVal h1, hexVal h2, hexVal h3, hexVal h4 with
              | some a, some b, some c2, some d =>
                some (Char.ofNat (((a * 16 + b) * 16 + c2) * 16 + d), rest3)
              | _, _, _, _ => none
            | _ => none
          else none
        match esc with
        | some (ch, r) => (parseStrBody fuel r).map (fun p => (ch :: p.1, p.2))
        | none => none
    else if c.toNat < 32 then none
    else (parseStrBody fuel rest).map (fun p => (c :: p.1, p.2))

/-- Parse an optional JSON fraction part. -/
def parseFrac (s : Chars) : Option (Chars × Chars) :=
  match s with
  | '.' :: r =>
    let ds := r.takeWhile Char.isDigit
    if ds = [] then none else some ('.' :: ds, r.dropWhile Char.isDigit)
  | _ => some ([], s)

/-- Parse an optional JSON exponent part. -/
def parseExp (s : Chars) : Option (Chars × Chars) :=
  match s with
  | [] => some ([], [])
  | c :: r =>
    if c = 'e' ∨ c = 'E' then
      let sgr : Chars × Chars :=
        match r with
        | '+' :: rr => (['+'], rr)
        | '-' :: rr => (['-'], rr)
        | _ => ([], r)
      let ds := sgr.2.takeWhile Char.isDigit
      if ds = [] then none
      else some (c :: (sgr.1 ++ ds), sgr.2.dropWhile Char.isDigit)
    else some ([], c :: r)

/-- Parse a JSON number (strict grammar: no leading zeros, no bare dot),
returning its lexeme and the remaining input. -/
def parseNumber (s : Chars) : Option (Chars × Chars) :=
  let sg : Chars × Chars :=
    match s with
    | '-' :: r => (['-'], r)
    | _ => ([], s)
  match sg.2 with
  | [] => none
  | c :: r =>
    if c.isDigit then
      let ip : Chars × Chars :=
        if c = '0' then ([c], r)
        else (c :: r.takeWhile Char.isDigit, r.dropWhile Char.isDigit)
      match parseFrac ip.2 with
      | none => none
      | some (fp, s3) =>
        match parseExp s3 with
        | none => none
        | some (ep, s4) => some (sg.1 ++ ip.1 ++ fp ++ ep, s4)
    else none

/-- Parse the elements of a non-empty JSON array given a value parser;
the input starts at the first element (whitespace already skipped). -/
def parseElemsAux (pv : Chars → Option (Json × Chars)) :
    Nat → Chars → Option (List Json × Chars)
  | 0, _ => none
  | fuel + 1, s =>
    match pv s with
    | none => none
    | some (v, r) =>
      match skipWS r with
      | ',' :: r2 => (parseElemsAux pv fuel (skipWS r2)).map (fun p => (v :: p.1, p.2))
      | ']' :: r2 => some ([v], r2)
      | _ => none

/-- Parse the members of a non-empty JSON object given a value parser;
the input starts at the first key (whitespace already skipped). -/
def parseMembersAux (pv : Chars → Option (Json × Chars)) :
    Nat → Chars → Option (List (Chars × Json) × Chars)
  | 0, _ => none
  | fuel + 1, s =>
    match s with
    | '"' :: r =>
      match parseStrBody (r.length + 1) r with
      | none => none
      | some (key, r1) =>
        match skipWS r1 with
        | ':' :: r2 =>
          match pv (skipWS r2) with
          | none => none
          | some (v, r3) =>
            match skipWS r3 with
            | ',' :: r4 =>
              (parseMembersAux pv fuel (skipWS r4)).map (fun p => ((key, v) :: p.1, p.2))
            | '\x7d' :: r4 => some ([(key, v)], r4)
            | _ => none
        | _ => none
    | _ => none

/-- Parse one JSON value; `fuel` bounds the nesting depth. -/
def parseValue : Nat → Chars → Option (Json × Chars)
  | 0, _ => none
  | fuel + 1, s =>
    match s with
    | [] => none
    | c :: r =>
      if c = '"' then
        (parseStrBody (r.length + 1) r).map (fun p => (Json.str p.1, p.2))
      else if c = '[' then
        match skipWS r with
        | ']' :: rr => some (Json.arr [], rr)
        | r1 =>
          (parseElemsAux (fun t => parseValue fuel t) (r1.length + 1) r1).map
            (fun p => (Json.arr p.1, p.2))
      else if c = '\x7b' then
        match skipWS r with
        | '\x7d' :: rr => some (Json.obj [], rr)
        | r1 =>
          (parseMembersAux (fun t => parseValue fuel t) (r1.length + 1) r1).map
            (fun p => (Json.obj p.1, p.2))
      else if c = 'n' then
        match r with
        | 'u' :: 'l' :: 'l' :: rr => some (Json.null, rr)
        | _ => none
      else if c = 't' then
        match r with
        | 'r' :: 'u' :: 'e' :: rr => some (Json.bool true, rr)
        | _ => none
      else if c = 'f' then
        match r with
        | 'a' :: 'l' :: 's' :: 'e' :: rr => some (Json.bool false, rr)
        | _ => none
      else if c = '-' ∨ c.isDigit then
        (parseNumber (c :: r)).map (fun p => (Json.num p.1, p.2))
      else none

/-- Model of `JSON.parse`: parse one value surrounded by optional
whitespace; any trailing input is an error. -/
def jsonParse (s : Chars) : Option Json :=
  match parseValue (s.length + 1) (skipWS s) with
  | some (v, rest) => if skipWS rest = [] then some v else none
  | none => none

/-- Object field lookup; with duplicate keys the last occurrence wins,
as in `JSON.parse`. -/
def Json.getField : Json → Chars → Option Json
  | .obj fs, k => fs.foldl (fun acc kv => if kv.1 = k then some kv.2 else acc) none
  | _, _ => none

/-- Model of `chunk.choices?.[0]?.delta?.content` on a decoded stream
chunk, reading the content as a string per the declared
`ChatStreamChunk` type (optional chaining yields `undefined`, i.e.
`none`, whenever a step of the path is missing). -/
def chunkContent (j : Json) : Option Chars :=
  match j.getField ("choices".toList) with
  | some (.arr (c0 :: _)) =>
    match c0.getField ("delta".toList) with
    | some d =>
      match d.getField ("content".toList) with
      | some (.str s) => some s
      | _ => none
    | none => none
  | _ => none

/-- Decoder state: tokens yielded so far and the consecutive-parse-failure
counter (`consecutiveParseFailures`). -/
structure DecState where
  tokens : List Chars
  fails : Nat
deriving DecidableEq, Repr

/-- Result of processing one complete line. -/
inductive LineStep where
  | cont (st : DecState)
  | stop (tokens : List Chars)
  | fail (tokens : List Chars)
deriving DecidableEq, Repr

/-- The `data:` marker of an SSE data line. -/
def dataMarker : Chars := ("data:").toList

/-- The literal termination sentinel payload. -/
def doneSentinel : Chars := ("[DONE]").toList

/-- Process one complete line of the SSE stream, mirroring the body of the
`for (const line of lines)` loop of `parseSSEStream`: trim; skip empty and
comment lines; skip non-`data:` lines; stop on the `[DONE]` sentinel;
otherwise decode with `p` — on success reset the failure counter and yield
a non-empty content fragment, on failure bump the counter and raise once
it reaches 5. -/
def processLine (p : Chars → Option Json) (st : DecState) (line : Chars) : LineStep :=
  let t := jsTrim line
  if t = [] ∨ t.head? = some ':' then .cont st
  else if ¬ (dataMarker.isPrefixOf t) then .cont st
  else
    let payload := jsTrim (t.drop 5)
    if payload = doneSentinel then .stop st.tokens
    else
      match p payload with
      | some j =>
        match chunkContent j with
        | some c => if c ≠ [] then .cont ⟨st.tokens ++ [c], 0⟩ else .cont ⟨st.tokens, 0⟩
        | none => .cont ⟨st.tokens, 0⟩
      | none =>
        if st.fails + 1 ≥ 5 then .fail st.tokens else .cont ⟨st.tokens, st.fails + 1⟩

/-- Process a list of complete lines in order, short-circuiting on stop
or failure. -/
def processLines (p : Chars → Option Json) (st : DecState) : List Chars → LineStep
  | [] => .cont st
  | l :: ls =>
    match processLine p st l with
    | .cont st1 => processLines p st1 ls
    | r => r

/-- Observable outcome of decoding a whole stream: normal exhaustion,
early termination on the sentinel, or the malformed-stream error. -/
inductive StreamResult where
  | finished (tokens : List Chars)
  | terminated (tokens : List Chars)
  | malformed (tokens : List Chars)
deriving DecidableEq, Repr

/-- The `data: [DONE]` line prefix checked by the final-buffer branch. -/
def doneLineMarker : Chars := ("data: [DONE]").toList

/-- Process the residual buffer after the source is exhausted, mirroring
the final `if (buffer.trim())` block of `parseSSEStream`: a trailing
`data:` line that is not a `data: [DONE]` line is decoded once; both
decode failure and absent content are silent. -/
def flushBuffer (p : Chars → Option Json) (buf : Chars) (st : DecState) : List Chars :=
  let t := jsTrim buf
  if t ≠ [] ∧ dataMarker.isPrefixOf t ∧ ¬ (doneLineMarker.isPrefixOf t) then
    match p (jsTrim (t.drop 5)) with
    | some j =>
      match chunkContent j with
      | some c => if c ≠ [] then st.tokens ++ [c] else st.tokens
      | none => st.tokens
    | none => st.tokens
  else st.tokens

/-- Run the decoder over a list of received chunks: each chunk is
appended to the residual buffer, complete lines are processed, and the
remainder becomes the new buffer; after the last chunk the residual
buffer is flushed. -/
def runSSE (p : Chars → Option Json) : List Chars → Chars → DecState → StreamResult
  | [], buf, st => .finished (flushBuffer p buf st)
  | c :: cs, buf, st =>
    match processLines p st (splitNL (buf ++ c)).1 with
    | .cont st1 => runSSE p cs (splitNL (buf ++ c)).2 st1
    | .stop toks => .terminated toks
    | .fail toks => .malformed toks

/-- The stream decoder `parseSSEStream` of src/lib/streaming.ts, applied
to a stream delivered as the given list of chunks. -/
def parseSSEStream (chunks : List Chars) : StreamResult :=
  runSSE jsonParse chunks [] ⟨[], 0⟩

/-- Message roles (src/lib/types.ts `ChatMessage.role`). -/
inductive Role where
  | system
  | user
  | assistant
  | tool
deriving DecidableEq, Repr

/-- A tool-call record's `function` payload: name and JSON-encoded
argument string. -/
structure ToolCallFunction where
  name : String
  arguments : String
deriving DecidableEq, Repr

/-- A `ToolCall` record received from the server (the constant
`type: "function"` discriminator is never read by the client and is
omitted). -/
structure ToolCall where
  id : String
  function : ToolCallFunction
deriving DecidableEq, Repr

/-- A `ChatMessage` (src/lib/types.ts).  The optional `images` and
`tool_calls` fields are modelled as lists, with the empty list standing
for an absent field — the code only ever tests them through
`?.length`-style truthiness, which cannot distinguish the two. -/
structure ChatMessage where
  role : Role
  content : String
  images : List String := []
  tool_calls : List ToolCall := []
  tool_call_id : Option String := none
deriving DecidableEq, Repr

/-- A tool declaration sent to the server.  The JSON-schema `parameters`
payload is carried opaquely to the transport and never inspected by the
orchestrator, so only the identifying fields are modelled. -/
structure ToolDecl where
  name : String
  description : String
deriving DecidableEq, Repr

/-- One choice of a non-streaming `ChatResponse`. -/
structure Choice where
  message : ChatMessage
  finish_reason : String
deriving DecidableEq, Repr

/-- A non-streaming `ChatResponse` (the unread `id` and `usage` fields
are omitted). -/
structure ChatResponse where
  choices : List Choice
deriving DecidableEq, Repr

/-- One web-search result (src/lib/web-search.ts `SearchResult`). -/
structure SearchResult where
  title : String
  url : String
  snippet : String
deriving DecidableEq, Repr

/-- Outcome of the external `webSearch` call: a result list, or a thrown
value carrying `some message` when it was an `Error` and `none`
otherwise. -/
abbrev SearchOutcome := Except (Option String) (List SearchResult)

/-- Join strings with a separator, as JavaScript `Array.prototype.join`. -/
def joinSep (sep : String) : List String → String
  | [] => ""
  | [x] => x
  | x :: xs => x ++ sep ++ joinSep sep xs

/-- `formatSearchContext` of src/lib/web-search.ts. -/
def formatSearchContext (results : List SearchResult) : String :=
  if results = [] then ""
  else
    "Web search results:\n\n" ++
      joinSep "\n\n"
        (results.enum.map (fun p =>
          toString (p.1 + 1) ++ ". [" ++ p.2.title ++ "](" ++ p.2.url ++ ")\n   " ++
            p.2.snippet))

/-- Is the first (pre-exponent) part of a JSON number lexeme zero? -/
def numLexIsZero (lex : Chars) : Bool :=
  (lex.takeWhile (fun c => c ≠ 'e' ∧ c ≠ 'E')).all (fun c => c = '-' ∨ c = '0' ∨ c = '.')

/-- JavaScript truthiness of a JSON value (`null`, `false`, `0` and the
empty string are falsy; arrays and objects are truthy). -/
def jsTruthy : Json → Bool
  | .null => false
  | .bool b => b
  | .str s => s ≠ []
  | .num lex => ¬ numLexIsZero lex
  | .arr _ => true
  | .obj _ => true

/-- The message of the `TypeError` thrown by `args.query` when the
decoded arguments are `null` (`executeTool`, src/lib/tools.ts:48 — the
property access sits outside the try/catch, which only wraps
`JSON.parse`).  The exact text is host-defined; the model fixes a
representative message, which nothing downstream inspects. -/
def nullQueryTypeError : String :=
  "TypeError: Cannot read properties of null (reading 'query')"

/-- `executeTool` of src/lib/tools.ts.  The external `webSearch` call is
abstracted as `oracle`, which receives the raw `query` argument value
and either returns the result list (then formatted by
`formatSearchContext`) or throws.  An undecodable payload, an unknown
tool name, a missing/falsy query and a failing search all return error
strings (`.ok`); but when the arguments decode to JSON `null`, the
unprotected `args.query` access throws (`.error`), and that exception
escapes `executeTool`.  A property access on any other non-object value
yields `undefined` without throwing, i.e. the missing-query path. -/
def executeTool (oracle : Json → SearchOutcome) (tc : ToolCall) : Except String String :=
  match jsonParse tc.function.arguments.toList with
  | none => .ok ("Error: Invalid JSON arguments for tool \"" ++ tc.function.name ++ "\"")
  | some args =>
    if tc.function.name = "web_search" then
      match args with
      | .null => .error nullQueryTypeError
      | _ =>
        match args.getField ("query".toList) with
        | some q =>
          if jsTruthy q then
            match oracle q with
            | .ok results => .ok (formatSearchContext results)
            | .error (some m) => .ok ("Search error: " ++ m)
            | .error none => .ok ("Search error: Unknown error")
          else .ok "Error: Missing query parameter"
        | none => .ok "Error: Missing query parameter"
    else .ok ("Error: Unknown tool \"" ++ tc.function.name ++ "\"")

/-- One transport exchange recorded during `runWithTools`: a with-tools
decision call (`sendChatWithTools`) or the final streaming call
(`sendChatStream`).  The streaming call records the `tools` field of its
request body; no caller of `runWithTools` or `sendChatStream` ever puts
a `tools` field on a `ChatRequest`, so the spread `{ ...request,
messages }` sends `none` there. -/
inductive CallEvent where
  | withTools (messages : List ChatMessage) (tools : List ToolDecl)
  | streamCall (messages : List ChatMessage) (tools : Option (List ToolDecl))
deriving DecidableEq, Repr

/-- Result of a `runWithTools` turn: the message list sent to the
finalization call together with the synthesized `toolMessages`, or the
thrown error message. -/
inductive RunResult where
  | ok (finalMessages toolMessages : List ChatMessage)
  | err (msg : String)
deriving DecidableEq, Repr

/-- A `runWithTools` turn's observable behaviour: the ordered transport
calls it issued and its result. -/
structure RunOutput where
  trace : List CallEvent
  result : RunResult
deriving DecidableEq, Repr

/-- The assistant message appended when a decision round requests tools:
`{ role: "assistant", content: choice.message.content || "",
tool_calls: choice.message.tool_calls }` (on `String` the `|| ""`
fallback is the identity). -/
def assistantMsgOf (ch : Choice) : ChatMessage :=
  ⟨Role.assistant, ch.message.content, [], ch.message.tool_calls, none⟩

/-- The tool-result message for one tool-call record: role `tool`,
content the executor's result string, tagged with the record's id. -/
def toolMsgOf (tc : ToolCall) (r : String) : ChatMessage :=
  ⟨Role.tool, r, [], [], some tc.id⟩

/-- The EXECUTING phase: run the tool-call records strictly in receipt
order, one tool-result message per record; the first record whose
execution throws aborts the phase (records after it never run) and the
exception propagates. -/
def toolResultsSeq (oracle : Json → SearchOutcome) : List ToolCall → Except String (List ChatMessage)
  | [] => .ok []
  | tc :: tcs =>
    match executeTool oracle tc with
    | .error e => .error e
    | .ok r =>
      match toolResultsSeq oracle tcs with
      | .error e => .error e
      | .ok ms => .ok (toolMsgOf tc r :: ms)

/-- The decision/execution loop of `runWithTools`.  `script` plays the
transport: `script round` is the `ChatResponse` of the round-th
`sendChatWithTools` call.  `fuel` is the remaining round budget
(`maxRounds - round`); when it runs out, or a response is not a tool-call
response, the loop falls through to the single streaming call.  A tool
execution that throws aborts the turn: its error propagates out of
`runWithTools` and no finalization call is issued. -/
def runLoop (script : Nat → ChatResponse) (oracle : Json → SearchOutcome)
    (tools : List ToolDecl) :
    Nat → Nat → List ChatMessage → List ChatMessage → List CallEvent → RunOutput
  | 0, _, msgs, tms, trace =>
    ⟨trace ++ [.streamCall msgs none], .ok msgs tms⟩
  | fuel + 1, round, msgs, tms, trace =>
    match (script round).choices with
    | [] => ⟨trace ++ [.withTools msgs tools], .err "No response from model"⟩
    | ch :: _ =>
      if ch.finish_reason = "tool_calls" ∧ ch.message.tool_calls ≠ [] then
        match toolResultsSeq oracle ch.message.tool_calls with
        | .error e => ⟨trace ++ [.withTools msgs tools], .err e⟩
        | .ok ms =>
          runLoop script oracle tools fuel (round + 1)
            (msgs ++ assistantMsgOf ch :: ms) (tms ++ assistantMsgOf ch :: ms)
            (trace ++ [.withTools msgs tools])
      else
        ⟨trace ++ [.withTools msgs tools, .streamCall msgs none], .ok msgs tms⟩

/-- `runWithTools` of src/lib/tools.ts: start from a copy of the
request's messages, run at most `maxRounds = 3` decision rounds, then
issue the streaming finalization call. -/
def runWithTools (script : Nat → ChatResponse) (oracle : Json → SearchOutcome)
    (requestMessages : List ChatMessage) (tools : List ToolDecl) : RunOutput :=
  runLoop script oracle tools 3 0 requestMessages [] []

/-- Provider kinds (src/lib/types.ts `ProviderType`). -/
inductive ProviderType where
  | ollama
  | lmstudio
  | llamacpp
  | custom
deriving DecidableEq, Repr

/-- `PROVIDER_NAMES` of src/lib/api.ts. -/
def PROVIDER_NAMES : ProviderType → String
  | .ollama => "Ollama"
  | .lmstudio => "LM Studio"
  | .llamacpp => "llama.cpp"
  | .custom => "Custom server"

/-- Provider configuration.  Only `type` and `baseUrl` are read by the
operations verified here; the generation parameters (model, temperature,
max tokens, system prompt, streaming preference) are never consulted by
`translateFetchError`, the send operations' error paths, or
`prepareMessagesForApi`, and are omitted. -/
structure ProviderConfig where
  type : ProviderType
  baseUrl : String
deriving DecidableEq, Repr

/-- A thrown JavaScript value as observed by `translateFetchError`:
its `instanceof` classifications, `name`, `message`, and the optional
`cause.code`.  For a non-`Error` throwable, `message` carries its
`String(err)` rendering. -/
structure JsError where
  isDOMException : Bool
  isTypeError : Bool
  isError : Bool
  name : String
  message : String
  causeCode : Option String
deriving DecidableEq, Repr

/-- JavaScript `hay.includes(needle)`. -/
def strContains (hay needle : String) : Bool :=
  decide (List.IsInfix needle.toList hay.toList)

/-- `translateFetchError` of src/lib/api.ts. -/
def translateFetchError (err : JsError) (config : ProviderConfig) : String :=
  let name := PROVIDER_NAMES config.type
  if err.isDOMException = true ∧ err.name = "TimeoutError" then
    "Server took too long to respond. Check that " ++ name ++ " is running at " ++
      config.baseUrl ++ "."
  else if err.isError = true ∧ err.name = "AbortError" then
    "Server took too long to respond. Check that " ++ name ++ " is running at " ++
      config.baseUrl ++ "."
  else if err.isTypeError = true ∨ (err.isError = true ∧ strContains err.message "fetch" = true) then
    let code := if err.isError = true then err.causeCode else none
    if code = some "ECONNREFUSED" ∨
        (err.isError = true ∧ strContains err.message "ECONNREFUSED" = true) then
      "Server not running at " ++ config.baseUrl ++ ". Start your " ++ name ++
        " server and try again."
    else
      "Cannot connect to " ++ name ++ " at " ++ config.baseUrl ++ " — is it running?"
  else
    err.message

/-- The `Error` thrown by the send operations on a non-success HTTP
status: `new Error("Server returned " + status + " " + statusText)`. -/
def httpStatusError (status : Nat) (statusText : String) : JsError :=
  ⟨false, false, true, "Error", "Server returned " ++ toString status ++ " " ++ statusText,
    none⟩

/-- The `Error` thrown by `sendChatStream` when the response has no
body. -/
def emptyBodyError : JsError :=
  ⟨false, false, true, "Error", "Response body is empty — streaming not supported by server",
    none⟩

/-- What the underlying `fetch` did: threw, or returned a response with
the given `ok` flag, status, status text, and body presence. -/
inductive FetchResult where
  | throws (e : JsError)
  | response (ok : Bool) (status : Nat) (statusText : String) (hasBody : Bool)
deriving DecidableEq, Repr

/-- The error path of `sendChatStream` of src/lib/api.ts: a thrown fetch
error, a non-success status, or a missing body all surface as the
message produced by `translateFetchError` on the corresponding thrown
value; otherwise the stream is handed back. -/
def sendChatStreamOutcome (config : ProviderConfig) (fr : FetchResult) :
    Except String Unit :=
  match fr with
  | .throws e => .error (translateFetchError e config)
  | .response ok status statusText hasBody =>
    if ok = false then .error (translateFetchError (httpStatusError status statusText) config)
    else if hasBody = false then .error (translateFetchError emptyBodyError config)
    else .ok ()

/-- One element of the multimodal content-parts representation. -/
inductive MsgPart where
  | text (s : String)
  | imageUrl (url : String)
deriving DecidableEq, Repr

/-- The `content` of a rebuilt API message: the original string or a
parts list. -/
inductive ApiContent where
  | str (s : String)
  | parts (ps : List MsgPart)
deriving DecidableEq, Repr

/-- An element of the `unknown[]` array sent as `messages`: either an
unmodified `ChatMessage` or a rebuilt `{ role, content }` object. -/
inductive ApiMessage where
  | raw (m : ChatMessage)
  | rebuilt (role : Role) (content : ApiContent)
deriving DecidableEq, Repr

/-- The part produced for one image reference: the inline-base64 image
part when `readFileSync` (abstracted as `rf`) succeeds, the visible
placeholder text part when it throws. -/
def encodeImagePart (rf : String → Option String) (path : String) : MsgPart :=
  match rf path with
  | some b64 => .imageUrl ("data:image/png;base64," ++ b64)
  | none => .text "[Image failed to load]"

/-- The transformation of one message inside the mapping branch of
`prepareMessagesForApi`: messages without images pass through; a message
with images becomes `{ role, content: parts }` where `parts` is an
optional text part (when `content` is truthy) followed by one part per
image reference. -/
def prepareOne (rf : String → Option String) (m : ChatMessage) : ApiMessage :=
  if m.images = [] then .raw m
  else
    let parts :=
      (if m.content = "" then [] else [MsgPart.text m.content]) ++
        m.images.map (encodeImagePart rf)
    if parts = [] then .rebuilt m.role (.str m.content) else .rebuilt m.role (.parts parts)

/-- `prepareMessagesForApi` of src/lib/api.ts: the batch passes through
untouched unless at least one message carries images. -/
def prepareMessagesForApi (rf : String → Option String) (msgs : List ChatMessage) :
    List ApiMessage :=
  if msgs.all (fun m => m.images = []) then msgs.map .raw
  else msgs.map (prepareOne rf)

/-- A heap of JavaScript arrays of messages; an array reference is an
index into the heap. -/
abbrev Store := List (List ChatMessage)

/-- Read the array behind a reference (dangling references read as
empty). -/
def storeGet (h : Store) (r : Nat) : List ChatMessage := h.getD r []

/-- Overwrite the array behind a reference. -/
def storeSet (h : Store) (r : Nat) (v : List ChatMessage) : Store := h.set r v

/-- `array.push(msg)` on the array behind `r`. -/
def storePush (h : Store) (r : Nat) (v : ChatMessage) : Store :=
  storeSet h r (storeGet h r ++ [v])

/-- The EXECUTING phase at the heap level: run the records in receipt
order, pushing each tool-result message to both arrays; the first
record whose execution throws stops the loop, leaving the pushes
already made in place and reporting the thrown error. -/
def execPushLoop (oracle : Json → SearchOutcome) (mRef tRef : Nat) :
    List ToolCall → Store → Store × Option String
  | [], h => (h, none)
  | tc :: tcs, h =>
    match executeTool oracle tc with
    | .error e => (h, some e)
    | .ok r =>
      execPushLoop oracle mRef tRef tcs
        (storePush (storePush h mRef (toolMsgOf tc r)) tRef (toolMsgOf tc r))

/-- The loop of `runWithTools` with the two mutated arrays (`messages`
at `mRef`, `toolMessages` at `tRef`) held in an explicit heap, so that
aliasing with the caller's array is observable.  Pushes happen in source
order: the assistant message to both arrays, then each tool-result
message to both arrays; a throwing tool execution aborts the turn with
the pushes already made left in place. -/
def runLoopStore (script : Nat → ChatResponse) (oracle : Json → SearchOutcome)
    (tools : List ToolDecl) :
    Nat → Nat → Store → Nat → Nat → List CallEvent → Store × RunOutput
  | 0, _, h, mRef, tRef, trace =>
    (h, ⟨trace ++ [.streamCall (storeGet h mRef) none],
      .ok (storeGet h mRef) (storeGet h tRef)⟩)
  | fuel + 1, round, h, mRef, tRef, trace =>
    match (script round).choices with
    | [] => (h, ⟨trace ++ [.withTools (storeGet h mRef) tools], .err "No response from model"⟩)
    | ch :: _ =>
      if ch.finish_reason = "tool_calls" ∧ ch.message.tool_calls ≠ [] then
        match execPushLoop oracle mRef tRef ch.message.tool_calls
            (storePush (storePush h mRef (assistantMsgOf ch)) tRef (assistantMsgOf ch)) with
        | (h2, some e) =>
          (h2, ⟨trace ++ [.withTools (storeGet h mRef) tools], .err e⟩)
        | (h2, none) =>
          runLoopStore script oracle tools fuel (round + 1) h2 mRef tRef
            (trace ++ [.withTools (storeGet h mRef) tools])
      else
        (h, ⟨trace ++ [.withTools (storeGet h mRef) tools,
                .streamCall (storeGet h mRef) none],
          .ok (storeGet h mRef) (storeGet h tRef)⟩)

/-- `runWithTools` with the caller's message array behind `reqRef` in an
explicit heap: `const messages = [...request.messages]` allocates a
fresh array holding a copy of the caller's elements, and
`const toolMessages = []` allocates a second fresh array; the loop
mutates only those two. -/
def runWithToolsStore (script : Nat → ChatResponse) (oracle : Json → SearchOutcome)
    (h : Store) (reqRef : Nat) (tools : List ToolDecl) : Store × RunOutput :=
  runLoopStore script oracle tools 3 0 (h ++ [storeGet h reqRef] ++ [[]])
    h.length (h.length + 1) []

/-- The synthesized `toolMessages` list handed back by a turn (empty on
an aborted turn). -/
def toolMessagesOf : RunOutput → List ChatMessage
  | ⟨_, .ok _ tms⟩ => tms
  | ⟨_, .err _⟩ => []

/-! ### Line-buffering lemmas -/

/-- Splitting a concatenation: the complete lines of `a ++ b` are the
complete lines of `a` followed by those of `a`'s remainder joined with
`b`, and the remainders agree. -/
theorem splitNL_append (a b : Chars) :
    splitNL (a ++ b) =
      ((splitNL a).1 ++ (splitNL ((splitNL a).2 ++ b)).1,
       (splitNL ((splitNL a).2 ++ b)).2) := by
  induction a generalizing b with
  | nil => simp [splitNL]
  | cons c a ih =>
    by_cases hc : c = '\n'
    · subst hc
      simp [splitNL, ih]
    · rcases h1 : splitNL a with ⟨as, ar⟩
      cases as with
      | nil =>
        rcases h2 : splitNL (ar ++ b) with ⟨bs, br⟩
        cases bs with
        | nil => simp [splitNL, hc, ih, h1, h2]
        | cons b1 bs => simp [splitNL, hc, ih, h1, h2]
      | cons a1 as =>
        simp [splitNL, hc, ih, h1]

/-- A string without a newline splits into no lines and itself. -/
theorem splitNL_no_newline (s : Chars) (h : '\n' ∉ s) : splitNL s = ([], s) := by
  induction s with
  | nil => simp [splitNL]
  | cons c s ih =>
    have hc : ¬ (c = '\n') := by
      intro hh
      exact h (hh ▸ List.mem_cons_self c s)
    have hs : '\n' ∉ s := fun hm => h (List.mem_cons_of_mem c hm)
    simp [splitNL, hc, ih hs]

/-- The remainder of a split never contains a newline. -/
theorem splitNL_snd_no_newline (s : Chars) : '\n' ∉ (splitNL s).2 := by
  induction s with
  | nil => simp [splitNL]
  | cons c s ih =>
    by_cases hc : c = '\n'
    · simpa [splitNL, hc] using ih
    · rcases h1 : splitNL s with ⟨ls, r⟩
      cases ls with
      | nil =>
        have := ih
        rw [h1] at this
        simp [splitNL, hc, h1]
        exact ⟨fun h => hc h.symm, this⟩
      | cons l ls =>
        have := ih
        rw [h1] at this
        simpa [splitNL, hc, h1] using this

/-- Processing a concatenation of line lists sequences the two runs. -/
theorem processLines_append (p : Chars → Option Json) (st : DecState)
    (l1 l2 : List Chars) :
    processLines p st (l1 ++ l2) =
      match processLines p st l1 with
      | .cont st1 => processLines p st1 l2
      | r => r := by
  induction l1 generalizing st with
  | nil => simp [processLines]
  | cons l ls ih =>
    cases h : processLine p st l with
    | cont st1 => simp [processLines, h, ih]
    | stop toks => simp [processLines, h]
    | fail toks => simp [processLines, h]

/-- Merging two adjacent chunks does not change the decoding run. -/
theorem runSSE_merge (p : Chars → Option Json) (a b : Chars) (cs : List Chars)
    (buf : Chars) (st : DecState) :
    runSSE p (a :: b :: cs) buf st = runSSE p ((a ++ b) :: cs) buf st := by
  have hassoc : buf ++ (a ++ b) = (buf ++ a) ++ b := (List.append_assoc buf a b).symm
  have hsplit := splitNL_append (buf ++ a) b
  rcases h1 : splitNL (buf ++ a) with ⟨l1, r1⟩
  rcases h2 : splitNL (r1 ++ b) with ⟨l2, r2⟩
  rw [h1] at hsplit
  simp only at hsplit
  rw [h2] at hsplit
  simp only [runSSE]
  rw [hassoc, hsplit, h1]
  simp only
  rw [processLines_append]
  cases hp1 : processLines p st l1 with
  | cont st1 =>
    simp only [runSSE]
    rw [h2]
  | stop toks => simp
  | fail toks => simp

/-- Decoding any chunk list equals decoding its concatenation as a
single chunk, provided the starting buffer holds no complete line. -/
theorem runSSE_join (p : Chars → Option Json) (cs : List Chars) (buf : Chars)
    (st : DecState) (h : '\n' ∉ buf) :
    runSSE p cs buf st = runSSE p [cs.flatten] buf st := by
  induction cs generalizing buf st with
  | nil =>
    have hb := splitNL_no_newline buf h
    simp only [List.flatten_nil, runSSE, List.append_nil, hb, processLines]
  | cons c cs ih =>
    have hmerge := runSSE_merge p c cs.flatten [] buf st
    rw [List.flatten_cons, ← hmerge]
    simp only [runSSE]
    cases hp : processLines p st (splitNL (buf ++ c)).1 with
    | cont st1 => exact ih (splitNL (buf ++ c)).2 st1 (splitNL_snd_no_newline (buf ++ c))
    | stop toks => rfl
    | fail toks => rfl

/-- The `data:` marker as an explicit character list. -/
theorem dataMarker_eq : dataMarker = ['d', 'a', 't', 'a', ':'] := rfl

/-- A list is a Boolean prefix of itself followed by anything. -/
theorem isPrefixOf_append_self (a b : Chars) : a.isPrefixOf (a ++ b) = true := by
  induction a with
  | nil => simp [List.isPrefixOf]
  | cons c a ih => simp [List.isPrefixOf, ih]

/-- C1.  For every logical streaming payload, running the stream decoder
on any partition of that payload into chunks yields exactly the same
result — the same ordered token sequence and the same outcome — as
running it on the whole payload as a single chunk. -/
theorem C1_chunk_boundary_invariance (chunks : List Chars) :
    parseSSEStream chunks = parseSSEStream [chunks.flatten] :=
  runSSE_join jsonParse chunks [] ⟨[], 0⟩ (by simp)

/-- C5.  The byte sequence `data: {"choices":[{"delta":{"content":"Hi"}}]}\n\n`
followed by `data: [DONE]\n\n` decodes to exactly the token `"Hi"` and
terminates; moreover a `data: [DONE]` line stops iteration at once: any
lines after it are never consumed, whatever the decoder state. -/
theorem C5_literal_round_trip :
    parseSSEStream
        [("data: \x7b\"choices\":[\x7b\"delta\":\x7b\"content\":\"Hi\"\x7d\x7d]\x7d\n\n").toList,
         ("data: [DONE]\n\n").toList]
      = StreamResult.terminated [("Hi").toList]
    ∧ (∀ (st : DecState) (line : Chars) (rest : List Chars),
        processLine jsonParse st line = .stop st.tokens →
        processLines jsonParse st (line :: rest) = .stop st.tokens)
    ∧ ∀ (st : DecState),
        processLine jsonParse st (("data: [DONE]").toList) = .stop st.tokens := by
  refine ⟨rfl, fun st line rest hline => ?_, fun st => rfl⟩
  simp [processLines, hline]

/-- C5 witness: the sentinel stop applied at a concrete state with a
pending line after the sentinel, which is never consumed. -/
theorem C5_literal_round_trip_witness :
    processLines jsonParse ⟨[("Hi").toList], 0⟩
        [("data: [DONE]").toList, ("data: junk").toList] = .stop [("Hi").toList] :=
  C5_literal_round_trip.2.1 ⟨[("Hi").toList], 0⟩ (("data: [DONE]").toList)
    [("data: junk").toList] (C5_literal_round_trip.2.2 ⟨[("Hi").toList], 0⟩)

/-- C4, counterexample.  Five consecutive lines whose payload `x` fails
to decode, the fifth arriving as the trailing partial line (no final
newline): the decoder finishes silently instead of raising the
threshold error the claim requires for a 5th consecutive failure. -/
theorem C4_counterexample :
    parseSSEStream [("data: x\ndata: x\ndata: x\ndata: x\ndata: x").toList]
      = StreamResult.finished [] := rfl

/-- C4, amended.  During chunk processing, each complete `data:` line
whose payload fails structured decoding is skipped with the
consecutive-failure counter incremented — the first four such failures
in a row never raise, the 5th raises the protocol-level error — and any
successful decode resets the counter to zero.  The trailing partial line
processed after source exhaustion is decode-or-skip only: its decode
failure neither increments the counter nor raises. -/
theorem C4_failure_threshold :
    (∀ (line : Chars) (st : DecState) (u : Chars),
      jsTrim line = dataMarker ++ u →
      jsTrim u ≠ doneSentinel →
      jsonParse (jsTrim u) = none →
      (st.fails + 1 < 5 → processLine jsonParse st line = .cont ⟨st.tokens, st.fails + 1⟩)
      ∧ (5 ≤ st.fails + 1 → processLine jsonParse st line = .fail st.tokens))
    ∧ (∀ (line : Chars) (st : DecState) (u : Chars) (j : Json),
      jsTrim line = dataMarker ++ u →
      jsTrim u ≠ doneSentinel →
      jsonParse (jsTrim u) = some j →
      ∃ st2, processLine jsonParse st line = .cont st2 ∧ st2.fails = 0)
    ∧ (∀ (buf : Chars) (st : DecState),
      jsonParse (jsTrim ((jsTrim buf).drop 5)) = none →
      flushBuffer jsonParse buf st = st.tokens) := by
  refine ⟨fun line st u ht hd hp => ?_, fun line st u j ht hd hp => ?_, fun buf st hp => ?_⟩
  · have hdrop : (dataMarker ++ u).drop 5 = u := by simp [dataMarker_eq]
    constructor
    · intro hlt
      have hge : ¬ (st.fails + 1 ≥ 5) := by omega
      simp [processLine, ht, dataMarker_eq, isPrefixOf_append_self, hdrop, hd, hp, hge]
    · intro hge
      have hge2 : st.fails + 1 ≥ 5 := hge
      simp [processLine, ht, dataMarker_eq, isPrefixOf_append_self, hdrop, hd, hp, hge2]
  · have hdrop : (dataMarker ++ u).drop 5 = u := by simp [dataMarker_eq]
    cases hc : chunkContent j with
    | none =>
      exact ⟨⟨st.tokens, 0⟩, by
        simp [processLine, ht, dataMarker_eq, isPrefixOf_append_self, hdrop, hd, hp, hc], rfl⟩
    | some c =>
      by_cases hce : c = []
      · exact ⟨⟨st.tokens, 0⟩, by
          simp [processLine, ht, dataMarker_eq, isPrefixOf_append_self, hdrop, hd, hp, hc, hce],
          rfl⟩
      · exact ⟨⟨st.tokens ++ [c], 0⟩, by
          simp [processLine, ht, dataMarker_eq, isPrefixOf_append_self, hdrop, hd, hp, hc, hce],
          rfl⟩
  · unfold flushBuffer
    simp only []
    split
    · rw [hp]
    · rfl

/-- C4 witness: a concrete failing `data: x` line continues with the
counter bumped at three prior failures, and raises at four. -/
theorem C4_failure_threshold_witness :
    processLine jsonParse ⟨[], 3⟩ (("data: x").toList) = .cont ⟨[], 4⟩
    ∧ processLine jsonParse ⟨[], 4⟩ (("data: x").toList) = .fail [] := by
  constructor
  · exact (C4_failure_threshold.1 (("data: x").toList) ⟨[], 3⟩ ((" x").toList)
      rfl (by decide) rfl).1 (by norm_num)
  · exact (C4_failure_threshold.1 (("data: x").toList) ⟨[], 4⟩ ((" x").toList)
      rfl (by decide) rfl).2 (by norm_num)

/-! ### Orchestrator lemmas -/

/-- One unfolding step of the decision loop. -/
theorem runLoop_step (script : Nat → ChatResponse) (oracle : Json → SearchOutcome)
    (tools : List ToolDecl) (fuel round : Nat) (msgs tms : List ChatMessage)
    (trace : List CallEvent) :
    runLoop script oracle tools (fuel + 1) round msgs tms trace =
      match (script round).choices with
      | [] => ⟨trace ++ [.withTools msgs tools], .err "No response from model"⟩
      | ch :: _ =>
        if ch.finish_reason = "tool_calls" ∧ ch.message.tool_calls ≠ [] then
          match toolResultsSeq oracle ch.message.tool_calls with
          | .error e => ⟨trace ++ [.withTools msgs tools], .err e⟩
          | .ok ms =>
            runLoop script oracle tools fuel (round + 1)
              (msgs ++ assistantMsgOf ch :: ms) (tms ++ assistantMsgOf ch :: ms)
              (trace ++ [.withTools msgs tools])
        else
          ⟨trace ++ [.withTools msgs tools, .streamCall msgs none], .ok msgs tms⟩ := rfl

/-- C10.  A decision-round response carrying the `tool_calls` finish
reason but no tool-call records, or carrying records under a different
finish reason, executes no tools: the loop exits at once and proceeds to
the single finalization streaming call with the messages accumulated so
far. -/
theorem C10_non_executable_decision (script : Nat → ChatResponse)
    (oracle : Json → SearchOutcome) (tools : List ToolDecl) (round fuel : Nat)
    (msgs tms : List ChatMessage) (trace : List CallEvent) (ch : Choice)
    (rest : List Choice)
    (hch : (script round).choices = ch :: rest)
    (hcond : (ch.finish_reason = "tool_calls" ∧ ch.message.tool_calls = []) ∨
      (ch.finish_reason ≠ "tool_calls" ∧ ch.message.tool_calls ≠ [])) :
    runLoop script oracle tools (fuel + 1) round msgs tms trace =
      ⟨trace ++ [.withTools msgs tools, .streamCall msgs none], .ok msgs tms⟩ := by
  have hneg : ¬ (ch.finish_reason = "tool_calls" ∧ ch.message.tool_calls ≠ []) := by
    rcases hcond with ⟨h1, h2⟩ | ⟨h1, h2⟩
    · exact fun hh => hh.2 h2
    · exact fun hh => h1 hh.1
  rw [runLoop_step, hch]
  simp only [hneg, if_false, if_neg hneg]

/-- A response whose single choice reports `tool_calls` but carries no
records. -/
def emptyToolCallsChoice : Choice :=
  ⟨⟨Role.assistant, "hello", [], [], none⟩, "tool_calls"⟩

/-- A normal stop completion. -/
def stopChoice : Choice :=
  ⟨⟨Role.assistant, "hello", [], [], none⟩, "stop"⟩

/-- A script that always answers with `emptyToolCallsChoice`. -/
def emptyToolCallsScript : Nat → ChatResponse := fun _ => ⟨[emptyToolCallsChoice]⟩

/-- A script that always stops normally. -/
def stopScript : Nat → ChatResponse := fun _ => ⟨[stopChoice]⟩

/-- An oracle whose search always throws a non-`Error` value. -/
def nullOracle : Json → SearchOutcome := fun _ => .error none

/-- C10 witness at a concrete script. -/
theorem C10_non_executable_decision_witness :
    runLoop emptyToolCallsScript nullOracle [] (2 + 1) 0 [] [] [] =
      ⟨[.withTools [] [], .streamCall [] none], .ok [] []⟩ := by
  have := C10_non_executable_decision emptyToolCallsScript nullOracle [] 0 2 [] [] []
    emptyToolCallsChoice [] rfl (Or.inl ⟨rfl, rfl⟩)
  simpa using this

/-- Step lemma, tool-call branch with all executions succeeding. -/
theorem runLoop_step_tool (script : Nat → ChatResponse) (oracle : Json → SearchOutcome)
    (tools : List ToolDecl) (fuel round : Nat) (msgs tms : List ChatMessage)
    (trace : List CallEvent) (ch : Choice) (rest : List Choice) (ms : List ChatMessage)
    (hch : (script round).choices = ch :: rest)
    (hc : ch.finish_reason = "tool_calls" ∧ ch.message.tool_calls ≠ [])
    (hseq : toolResultsSeq oracle ch.message.tool_calls = .ok ms) :
    runLoop script oracle tools (fuel + 1) round msgs tms trace =
      runLoop script oracle tools fuel (round + 1)
        (msgs ++ assistantMsgOf ch :: ms) (tms ++ assistantMsgOf ch :: ms)
        (trace ++ [.withTools msgs tools]) := by
  have h0 : runLoop script oracle tools (fuel + 1) round msgs tms trace =
      match toolResultsSeq oracle ch.message.tool_calls with
      | .error e => ⟨trace ++ [.withTools msgs tools], .err e⟩
      | .ok ms2 =>
        runLoop script oracle tools fuel (round + 1)
          (msgs ++ assistantMsgOf ch :: ms2) (tms ++ assistantMsgOf ch :: ms2)
          (trace ++ [.withTools msgs tools]) := by
    rw [runLoop_step, hch]
    exact if_pos hc
  rw [h0, hseq]

/-- Step lemma, tool-call branch with a throwing execution: the turn
aborts with the thrown error and no finalization call. -/
theorem runLoop_step_toolerr (script : Nat → ChatResponse) (oracle : Json → SearchOutcome)
    (tools : List ToolDecl) (fuel round : Nat) (msgs tms : List ChatMessage)
    (trace : List CallEvent) (ch : Choice) (rest : List Choice) (e : String)
    (hch : (script round).choices = ch :: rest)
    (hc : ch.finish_reason = "tool_calls" ∧ ch.message.tool_calls ≠ [])
    (hseq : toolResultsSeq oracle ch.message.tool_calls = .error e) :
    runLoop script oracle tools (fuel + 1) round msgs tms trace =
      ⟨trace ++ [.withTools msgs tools], .err e⟩ := by
  have h0 : runLoop script oracle tools (fuel + 1) round msgs tms trace =
      match toolResultsSeq oracle ch.message.tool_calls with
      | .error e2 => ⟨trace ++ [.withTools msgs tools], .err e2⟩
      | .ok ms2 =>
        runLoop script oracle tools fuel (round + 1)
          (msgs ++ assistantMsgOf ch :: ms2) (tms ++ assistantMsgOf ch :: ms2)
          (trace ++ [.withTools msgs tools]) := by
    rw [runLoop_step, hch]
    exact if_pos hc
  rw [h0, hseq]

/-- Step lemma, normal-exit branch. -/
theorem runLoop_step_exit (script : Nat → ChatResponse) (oracle : Json → SearchOutcome)
    (tools : List ToolDecl) (fuel round : Nat) (msgs tms : List ChatMessage)
    (trace : List CallEvent) (ch : Choice) (rest : List Choice)
    (hch : (script round).choices = ch :: rest)
    (hneg : ¬ (ch.finish_reason = "tool_calls" ∧ ch.message.tool_calls ≠ [])) :
    runLoop script oracle tools (fuel + 1) round msgs tms trace =
      ⟨trace ++ [.withTools msgs tools, .streamCall msgs none], .ok msgs tms⟩ := by
  rw [runLoop_step, hch]
  exact if_neg hneg

/-- Number of with-tools decision calls in a trace. -/
def countWithTools (tr : List CallEvent) : Nat :=
  tr.countP (fun e => match e with | .withTools _ _ => true | _ => false)

/-- Number of streaming finalization calls in a trace. -/
def countStream (tr : List CallEvent) : Nat :=
  tr.countP (fun e => match e with | .streamCall _ _ => true | _ => false)

/-- A tool-call record asking for a web search. -/
def sampleToolCall : ToolCall := ⟨"call_1", ⟨"web_search", "\x7b\"query\":\"news\"\x7d"⟩⟩

/-- A choice requesting one tool call. -/
def toolChoice : Choice := ⟨⟨Role.assistant, "", [], [sampleToolCall], none⟩, "tool_calls"⟩

/-- A script requesting tools in rounds 1 and 2, then stopping. -/
def twoRoundScript : Nat → ChatResponse :=
  fun n => if n ≤ 1 then ⟨[toolChoice]⟩ else ⟨[stopChoice]⟩

/-- A web-search record whose argument payload is the JSON text `null`. -/
def nullArgsToolCall : ToolCall := ⟨"call_null", ⟨"web_search", "null"⟩⟩

/-- A choice requesting the null-arguments web search. -/
def nullArgsChoice : Choice :=
  ⟨⟨Role.assistant, "", [], [nullArgsToolCall], none⟩, "tool_calls"⟩

/-- A script requesting the null-arguments tool call in rounds 1 and 2,
then stopping — an instance of the C3 scenario. -/
def nullTwoRoundScript : Nat → ChatResponse :=
  fun n => if n ≤ 1 then ⟨[nullArgsChoice]⟩ else ⟨[stopChoice]⟩

/-- C3, counterexample.  A script that requests tools in rounds 1 and 2
and completes normally in round 3 — but whose round-1 record is a
web search with arguments `null` — makes exactly 1 decision call and no
finalization call: the `args.query` access throws and aborts the turn,
contradicting the claimed 3-decision/1-finalization trace. -/
theorem C3_counterexample :
    runWithTools nullTwoRoundScript nullOracle [] [] =
      ⟨[.withTools [] []], .err nullQueryTypeError⟩
    ∧ countWithTools (runWithTools nullTwoRoundScript nullOracle [] []).trace = 1
    ∧ countStream (runWithTools nullTwoRoundScript nullOracle [] []).trace = 0 :=
  ⟨rfl, rfl, rfl⟩

/-- C3, amended.  On a script that requests tools in rounds 1 and 2 and
completes normally in round 3, provided every requested record in
rounds 1 and 2 executes without throwing (no web-search record whose
arguments decode to JSON `null`), the orchestrator makes exactly 3
decision calls and exactly 1 finalization call, and the finalization
message list is the original messages, then the round-1 assistant
message and its tool-result messages, then the round-2 assistant
message and its tool-result messages, in that order. -/
theorem C3_two_tool_rounds (script : Nat → ChatResponse)
    (oracle : Json → SearchOutcome) (msgs : List ChatMessage) (tools : List ToolDecl)
    (ch1 ch2 ch3 : Choice) (r1 r2 r3 : List Choice) (ms1 ms2 : List ChatMessage)
    (h1 : (script 0).choices = ch1 :: r1)
    (hf1 : ch1.finish_reason = "tool_calls") (hn1 : ch1.message.tool_calls ≠ [])
    (hseq1 : toolResultsSeq oracle ch1.message.tool_calls = .ok ms1)
    (h2 : (script 1).choices = ch2 :: r2)
    (hf2 : ch2.finish_reason = "tool_calls") (hn2 : ch2.message.tool_calls ≠ [])
    (hseq2 : toolResultsSeq oracle ch2.message.tool_calls = .ok ms2)
    (h3 : (script 2).choices = ch3 :: r3)
    (hf3 : ch3.finish_reason ≠ "tool_calls") :
    runWithTools script oracle msgs tools =
      ⟨[.withTools msgs tools,
        .withTools (msgs ++ (assistantMsgOf ch1 :: ms1)) tools,
        .withTools (msgs ++ (assistantMsgOf ch1 :: ms1) ++ (assistantMsgOf ch2 :: ms2)) tools,
        .streamCall (msgs ++ (assistantMsgOf ch1 :: ms1) ++ (assistantMsgOf ch2 :: ms2)) none],
       .ok (msgs ++ (assistantMsgOf ch1 :: ms1) ++ (assistantMsgOf ch2 :: ms2))
         ((assistantMsgOf ch1 :: ms1) ++ (assistantMsgOf ch2 :: ms2))⟩ := by
  have hneg3 : ¬ (ch3.finish_reason = "tool_calls" ∧ ch3.message.tool_calls ≠ []) :=
    fun hh => hf3 hh.1
  unfold runWithTools
  rw [show (3 : Nat) = 2 + 1 from rfl,
    runLoop_step_tool script oracle tools 2 0 msgs [] [] ch1 r1 ms1 h1 ⟨hf1, hn1⟩ hseq1]
  rw [show (2 : Nat) = 1 + 1 from rfl, show (0 : Nat) + 1 = 1 from rfl,
    runLoop_step_tool script oracle tools 1 1 _ _ _ ch2 r2 ms2 h2 ⟨hf2, hn2⟩ hseq2]
  rw [show (1 : Nat) = 0 + 1 from rfl, show (1 : Nat) + 1 = 2 from rfl,
    runLoop_step_exit script oracle tools 0 2 _ _ _ ch3 r3 h3 hneg3]
  simp

/-- C3 witness at the concrete two-round script whose executions all
return result strings. -/
theorem C3_two_tool_rounds_witness :
    runWithTools twoRoundScript nullOracle [] [] =
      ⟨[.withTools [] [],
        .withTools (assistantMsgOf toolChoice ::
          [toolMsgOf sampleToolCall "Search error: Unknown error"]) [],
        .withTools ((assistantMsgOf toolChoice ::
            [toolMsgOf sampleToolCall "Search error: Unknown error"]) ++
          (assistantMsgOf toolChoice ::
            [toolMsgOf sampleToolCall "Search error: Unknown error"])) [],
        .streamCall ((assistantMsgOf toolChoice ::
            [toolMsgOf sampleToolCall "Search error: Unknown error"]) ++
          (assistantMsgOf toolChoice ::
            [toolMsgOf sampleToolCall "Search error: Unknown error"])) none],
       .ok ((assistantMsgOf toolChoice ::
            [toolMsgOf sampleToolCall "Search error: Unknown error"]) ++
          (assistantMsgOf toolChoice ::
            [toolMsgOf sampleToolCall "Search error: Unknown error"]))
         ((assistantMsgOf toolChoice ::
            [toolMsgOf sampleToolCall "Search error: Unknown error"]) ++
          (assistantMsgOf toolChoice ::
            [toolMsgOf sampleToolCall "Search error: Unknown error"]))⟩ := by
  have h := C3_two_tool_rounds twoRoundScript nullOracle [] [] toolChoice toolChoice stopChoice
    [] [] [] [toolMsgOf sampleToolCall "Search error: Unknown error"]
    [toolMsgOf sampleToolCall "Search error: Unknown error"]
    rfl rfl (by decide) rfl rfl rfl (by decide) rfl rfl (by decide)
  simpa using h

/-- The last element of an append with a non-empty right part. -/
theorem getLast?_append_right {α : Type} (l1 l2 : List α) (h : l2 ≠ []) :
    (l1 ++ l2).getLast? = l2.getLast? := by
  induction l1 with
  | nil => rfl
  | cons a l1 ih =>
    have hne : l1 ++ l2 ≠ [] := by
      simp [h]
    obtain ⟨x, xs, hx⟩ := List.exists_cons_of_ne_nil hne
    rw [List.cons_append, hx, List.getLast?_cons_cons, ← hx, ih]

/-- Behaviour of the decision loop: it extends the trace by at most
`fuel` decision calls, and on normal completion the extension ends with
exactly one streaming call whose message list is the input list plus the
common block of messages appended to both accumulators. -/
theorem runLoop_spec (script : Nat → ChatResponse) (oracle : Json → SearchOutcome)
    (tools : List ToolDecl) :
    ∀ (fuel round : Nat) (msgs tms : List ChatMessage) (trace : List CallEvent),
    ∃ ext, (runLoop script oracle tools fuel round msgs tms trace).trace = trace ++ ext
      ∧ countWithTools ext ≤ fuel
      ∧ ∀ f t, (runLoop script oracle tools fuel round msgs tms trace).result = .ok f t →
          countStream ext = 1 ∧ ext.getLast? = some (.streamCall f none)
          ∧ ∃ d, f = msgs ++ d ∧ t = tms ++ d := by
  intro fuel
  induction fuel with
  | zero =>
    intro round msgs tms trace
    refine ⟨[.streamCall msgs none], by simp [runLoop], by simp [countWithTools], ?_⟩
    intro f t hres
    simp only [runLoop] at hres
    obtain ⟨hf, ht⟩ : msgs = f ∧ tms = t := by
      cases hres
      exact ⟨rfl, rfl⟩
    subst hf
    subst ht
    exact ⟨by simp [countStream], by simp, [], by simp, by simp⟩
  | succ fuel ih =>
    intro round msgs tms trace
    cases hch : (script round).choices with
    | nil =>
      refine ⟨[.withTools msgs tools], ?_, by simp [countWithTools], ?_⟩
      · rw [runLoop_step, hch]
      · intro f t hres
        rw [runLoop_step, hch] at hres
        simp at hres
    | cons ch rest =>
      by_cases hc : ch.finish_reason = "tool_calls" ∧ ch.message.tool_calls ≠ []
      · cases hseq : toolResultsSeq oracle ch.message.tool_calls with
        | error e =>
          rw [runLoop_step_toolerr script oracle tools fuel round msgs tms trace ch rest e
            hch hc hseq]
          refine ⟨[.withTools msgs tools], by simp, by simp [countWithTools], ?_⟩
          intro f t hres
          simp at hres
        | ok ms =>
          rw [runLoop_step_tool script oracle tools fuel round msgs tms trace ch rest ms
            hch hc hseq]
          obtain ⟨ext, hext, hcount, hok⟩ := ih (round + 1) (msgs ++ assistantMsgOf ch :: ms)
            (tms ++ assistantMsgOf ch :: ms) (trace ++ [.withTools msgs tools])
          refine ⟨.withTools msgs tools :: ext, ?_, ?_, ?_⟩
          · rw [hext]; simp
          · simp [countWithTools, List.countP_cons] at hcount ⊢
            omega
          · intro f t hres
            obtain ⟨hs, hl, d, hf, ht⟩ := hok f t hres
            have hextne : ext ≠ [] := by
              intro hh
              rw [hh] at hl
              simp at hl
            refine ⟨?_, ?_, (assistantMsgOf ch :: ms) ++ d, ?_, ?_⟩
            · simpa [countStream, List.countP_cons] using hs
            · rw [show (CallEvent.withTools msgs tools :: ext) = [CallEvent.withTools msgs tools] ++ ext from rfl,
                getLast?_append_right _ _ hextne]
              exact hl
            · rw [hf, List.append_assoc]
            · rw [ht, List.append_assoc]
      · rw [runLoop_step_exit script oracle tools fuel round msgs tms trace ch rest hch hc]
        refine ⟨[.withTools msgs tools, .streamCall msgs none], by simp, by simp [countWithTools], ?_⟩
        intro f t hres
        obtain ⟨hf, ht⟩ : msgs = f ∧ tms = t := by
          cases hres
          exact ⟨rfl, rfl⟩
        subst hf
        subst ht
        exact ⟨by simp [countStream], by simp, [], by simp, by simp⟩

/-- C2.  For every transport-response script, the orchestrator issues at
most 3 with-tools decision calls; whenever the turn completes normally —
a non-tool completion or an exhausted round budget — the trace contains
exactly one streaming finalization call, it is the last call, it is
built from the accumulated message list (the original messages followed
by every synthesized message), and it carries no tool declarations. -/
theorem C2_bounded_rounds_single_finalization (script : Nat → ChatResponse)
    (oracle : Json → SearchOutcome) (msgs : List ChatMessage) (tools : List ToolDecl) :
    countWithTools (runWithTools script oracle msgs tools).trace ≤ 3
    ∧ ∀ f t, (runWithTools script oracle msgs tools).result = .ok f t →
        countStream (runWithTools script oracle msgs tools).trace = 1
        ∧ (runWithTools script oracle msgs tools).trace.getLast? =
            some (.streamCall f none)
        ∧ f = msgs ++ t := by
  obtain ⟨ext, hext, hcount, hok⟩ := runLoop_spec script oracle tools 3 0 msgs [] []
  have htr : (runWithTools script oracle msgs tools).trace = ext := by
    rw [runWithTools, hext]
    simp
  constructor
  · rw [htr]
    exact hcount
  · intro f t hres
    obtain ⟨hs, hl, d, hf, ht⟩ := hok f t hres
    have htd : t = d := by simpa using ht
    refine ⟨by rw [htr]; exact hs, by rw [htr]; exact hl, ?_⟩
    rw [hf, htd]

/-- C2 witness at the always-stop script. -/
theorem C2_bounded_rounds_single_finalization_witness :
    countWithTools (runWithTools stopScript nullOracle [] []).trace ≤ 3
    ∧ countStream (runWithTools stopScript nullOracle [] []).trace = 1
    ∧ (runWithTools stopScript nullOracle [] []).trace.getLast? =
        some (.streamCall [] none) := by
  have h := C2_bounded_rounds_single_finalization stopScript nullOracle [] []
  have hres : (runWithTools stopScript nullOracle [] []).result = .ok [] [] := rfl
  exact ⟨h.1, (h.2 [] [] hres).1, (h.2 [] [] hres).2.1⟩

/-- A successful EXECUTING phase produces exactly one tool-result
message per record, in receipt order, each built from that record's id
and result string. -/
theorem toolResultsSeq_ok_spec (oracle : Json → SearchOutcome) :
    ∀ (tcs : List ToolCall) (ms : List ChatMessage),
    toolResultsSeq oracle tcs = .ok ms →
    ms.length = tcs.length
    ∧ ∀ (i : Nat) (tc2 : ToolCall), tcs[i]? = some tc2 →
        ∃ r, executeTool oracle tc2 = .ok r ∧ ms[i]? = some (toolMsgOf tc2 r) := by
  intro tcs
  induction tcs with
  | nil =>
    intro ms hms
    have hms2 : ([] : List ChatMessage) = ms := by
      cases hms
      rfl
    subst hms2
    exact ⟨rfl, fun i tc2 hi => by simp at hi⟩
  | cons tc tcs ih =>
    intro ms hms
    have hstep : toolResultsSeq oracle (tc :: tcs) =
        match executeTool oracle tc with
        | .error e => .error e
        | .ok r =>
          match toolResultsSeq oracle tcs with
          | .error e => .error e
          | .ok ms2 => .ok (toolMsgOf tc r :: ms2) := rfl
    rw [hstep] at hms
    cases he : executeTool oracle tc with
    | error e =>
      rw [he] at hms
      simp at hms
    | ok r =>
      rw [he] at hms
      cases hseq : toolResultsSeq oracle tcs with
      | error e =>
        rw [hseq] at hms
        simp at hms
      | ok ms2 =>
        rw [hseq] at hms
        have hms2 : toolMsgOf tc r :: ms2 = ms := by
          cases hms
          rfl
        subst hms2
        obtain ⟨hlen, hidx⟩ := ih ms2 hseq
        refine ⟨by simp [hlen], ?_⟩
        intro i tc2 hi
        cases i with
        | zero =>
          have : tc = tc2 := by simpa using hi
          subst this
          exact ⟨r, he, by simp⟩
        | succ i =>
          rw [List.getElem?_cons_succ] at hi
          obtain ⟨r2, hr2, hm2⟩ := hidx i tc2 hi
          exact ⟨r2, hr2, by simpa using hm2⟩

/-- C6, counterexample.  A web-search record whose argument payload is
the JSON text `null` makes tool execution throw: the unprotected
`args.query` access raises a `TypeError` that escapes `executeTool` and
aborts the round and the turn — one decision call, no tool-result
message, no finalization. -/
theorem C6_counterexample :
    executeTool nullOracle nullArgsToolCall = .error nullQueryTypeError
    ∧ runWithTools (fun _ => ⟨[nullArgsChoice]⟩) nullOracle [] [] =
        ⟨[.withTools [] []], .err nullQueryTypeError⟩ := ⟨rfl, rfl⟩

/-- C6, amended.  A successful EXECUTING phase produces exactly one
tool-result message per record, in receipt order, each with role `tool`
and tagged with the record's id; an undecodable argument payload, an
unknown tool name, and a failing search each yield a result string
(`.ok`) rather than an exception.  However, a web-search record whose
arguments decode to JSON `null` throws: the unprotected `args.query`
access raises a `TypeError` that aborts the round and the turn. -/
theorem C6_tool_results (oracle : Json → SearchOutcome) (tcs : List ToolCall)
    (ms : List ChatMessage) (i : Nat) (tc tc2 : ToolCall) (j qv : Json) (m : String) :
    (toolResultsSeq oracle tcs = .ok ms → ms.length = tcs.length)
    ∧ (toolResultsSeq oracle tcs = .ok ms → tcs[i]? = some tc2 →
        ∃ r, executeTool oracle tc2 = .ok r ∧ ms[i]? = some (toolMsgOf tc2 r))
    ∧ (toolMsgOf tc m).role = Role.tool
    ∧ (toolMsgOf tc m).tool_call_id = some tc.id
    ∧ (jsonParse tc.function.arguments.toList = none →
        executeTool oracle tc =
          .ok ("Error: Invalid JSON arguments for tool \"" ++ tc.function.name ++ "\""))
    ∧ (jsonParse tc.function.arguments.toList = some j →
        tc.function.name ≠ "web_search" →
        executeTool oracle tc = .ok ("Error: Unknown tool \"" ++ tc.function.name ++ "\""))
    ∧ (jsonParse tc.function.arguments.toList = some j →
        tc.function.name = "web_search" →
        j.getField ("query".toList) = some qv →
        jsTruthy qv = true →
        oracle qv = .error (some m) →
        executeTool oracle tc = .ok ("Search error: " ++ m))
    ∧ (tc.function.name = "web_search" →
        jsonParse tc.function.arguments.toList = some Json.null →
        executeTool oracle tc = .error nullQueryTypeError) := by
  refine ⟨fun hms => (toolResultsSeq_ok_spec oracle tcs ms hms).1,
    fun hms hi => (toolResultsSeq_ok_spec oracle tcs ms hms).2 i tc2 hi,
    rfl, rfl, ?_, ?_, ?_, ?_⟩
  · intro hp
    have hp2 : jsonParse tc.function.arguments.data = none := hp
    simp [executeTool, hp2]
  · intro hp hn
    have hp2 : jsonParse tc.function.arguments.data = some j := hp
    simp [executeTool, hp2, hn]
  · intro hp hn hq ht ho
    have hp2 : jsonParse tc.function.arguments.data = some j := hp
    have hq2 : j.getField ['q', 'u', 'e', 'r', 'y'] = some qv := hq
    cases j with
    | null => simp [Json.getField] at hq2
    | bool b => simp [Json.getField] at hq2
    | num l => simp [Json.getField] at hq2
    | str s => simp [Json.getField] at hq2
    | arr xs => simp [Json.getField] at hq2
    | obj fs => simp [executeTool, hp2, hn, hq2, ht, ho]
  · intro hn hp
    have hp2 : jsonParse tc.function.arguments.data = some Json.null := hp
    simp [executeTool, hp2, hn]

/-- A tool call with undecodable JSON arguments. -/
def badArgsToolCall : ToolCall := ⟨"call_bad", ⟨"web_search", "not json"⟩⟩

/-- A tool call naming an unregistered tool. -/
def unknownToolCall : ToolCall := ⟨"call_unknown", ⟨"read_file", "\x7b\x7d"⟩⟩

/-- An oracle whose search always throws an `Error` with a message. -/
def failingOracle : Json → SearchOutcome := fun _ => .error (some "boom")

/-- C6 witness: the per-record shape of a successful phase and the
three recovered failure shapes, plus the throwing null-arguments case,
at concrete tool calls. -/
theorem C6_tool_results_witness :
    ([toolMsgOf sampleToolCall "Search error: boom"] : List ChatMessage).length =
      ([sampleToolCall] : List ToolCall).length
    ∧ (∃ r, executeTool failingOracle sampleToolCall = .ok r ∧
        ([toolMsgOf sampleToolCall "Search error: boom"] : List ChatMessage)[0]? =
          some (toolMsgOf sampleToolCall r))
    ∧ executeTool failingOracle badArgsToolCall =
        .ok "Error: Invalid JSON arguments for tool \"web_search\""
    ∧ executeTool failingOracle unknownToolCall = .ok "Error: Unknown tool \"read_file\""
    ∧ executeTool failingOracle sampleToolCall = .ok "Search error: boom"
    ∧ executeTool failingOracle nullArgsToolCall = .error nullQueryTypeError := by
  refine ⟨?_, ?_, ?_, ?_, ?_, ?_⟩
  · exact (C6_tool_results failingOracle [sampleToolCall]
      [toolMsgOf sampleToolCall "Search error: boom"] 0 sampleToolCall sampleToolCall
      Json.null Json.null "boom").1 rfl
  · exact (C6_tool_results failingOracle [sampleToolCall]
      [toolMsgOf sampleToolCall "Search error: boom"] 0 sampleToolCall sampleToolCall
      Json.null Json.null "boom").2.1 rfl rfl
  · exact (C6_tool_results failingOracle [] []
      0 badArgsToolCall badArgsToolCall Json.null Json.null "boom").2.2.2.2.1 rfl
  · exact (C6_tool_results failingOracle [] []
      0 unknownToolCall unknownToolCall (Json.obj []) Json.null "boom").2.2.2.2.2.1
      rfl (by decide)
  · exact (C6_tool_results failingOracle [] []
      0 sampleToolCall sampleToolCall
      (Json.obj [(("query").toList, Json.str (("news").toList))])
      (Json.str (("news").toList)) "boom").2.2.2.2.2.2.1 rfl rfl rfl (by decide) rfl
  · exact (C6_tool_results failingOracle [] []
      0 nullArgsToolCall nullArgsToolCall Json.null Json.null "boom").2.2.2.2.2.2.2
      rfl rfl

/-- `toList` distributes over string append. -/
theorem strToList_append (a b : String) : (a ++ b).toList = a.toList ++ b.toList := by
  cases a
  cases b
  rfl

/-- `strContains` holds when the needle is an infix. -/
theorem strContains_of_infix {hay needle : String}
    (h : needle.toList <:+: hay.toList) : strContains hay needle = true :=
  decide_eq_true h

/-- The middle component of a double append is contained. -/
theorem strContains_append_mid (a b c : String) : strContains (a ++ b ++ c) b = true := by
  refine strContains_of_infix ⟨a.toList, c.toList, ?_⟩
  rw [strToList_append, strToList_append]

/-- C7, counterexample.  A non-success HTTP status from the streaming
endpoint surfaces as `Server returned 500 Internal Server Error`, which
contains neither the configured endpoint nor the provider label. -/
theorem C7_counterexample :
    sendChatStreamOutcome ⟨.ollama, "http://localhost:11434"⟩
        (.response false 500 "Internal Server Error" true)
      = .error "Server returned 500 Internal Server Error"
    ∧ strContains "Server returned 500 Internal Server Error" "http://localhost:11434" = false
    ∧ strContains "Server returned 500 Internal Server Error" "Ollama" = false := by
  refine ⟨rfl, by decide, by decide⟩

/-- C7, amended.  Timeout/cancellation, connection-refused and
network-unreachable failures are surfaced with a message containing both
the configured endpoint and the provider label; any other thrown `Error`
— in particular the non-success-HTTP-status and empty-body errors built
by the send operations — passes through with its own message, which does
not in general carry either. -/
theorem C7_classified_failures (config : ProviderConfig) (e : JsError) :
    ((e.isDOMException = true ∧ e.name = "TimeoutError") ∨
        (e.isError = true ∧ e.name = "AbortError") →
      strContains (translateFetchError e config) config.baseUrl = true
      ∧ strContains (translateFetchError e config) (PROVIDER_NAMES config.type) = true)
    ∧ (¬ (e.isDOMException = true ∧ e.name = "TimeoutError") →
        ¬ (e.isError = true ∧ e.name = "AbortError") →
        (e.isTypeError = true ∨ (e.isError = true ∧ strContains e.message "fetch" = true)) →
      strContains (translateFetchError e config) config.baseUrl = true
      ∧ strContains (translateFetchError e config) (PROVIDER_NAMES config.type) = true)
    ∧ (¬ (e.isDOMException = true ∧ e.name = "TimeoutError") →
        ¬ (e.isError = true ∧ e.name = "AbortError") →
        ¬ (e.isTypeError = true ∨ (e.isError = true ∧ strContains e.message "fetch" = true)) →
      translateFetchError e config = e.message) := by
  refine ⟨?_, ?_, ?_⟩
  · intro hguard
    rcases hguard with h1 | h2
    · have : translateFetchError e config =
          "Server took too long to respond. Check that " ++ PROVIDER_NAMES config.type ++
            " is running at " ++ config.baseUrl ++ "." := by
        unfold translateFetchError
        rw [if_pos h1]
      rw [this]
      constructor
      · have hsh : ("Server took too long to respond. Check that " ++
            PROVIDER_NAMES config.type ++ " is running at " ++ config.baseUrl ++ ".") =
            ("Server took too long to respond. Check that " ++ PROVIDER_NAMES config.type ++
              " is running at ") ++ config.baseUrl ++ "." := by
          simp [String.append_assoc]
        rw [hsh]
        exact strContains_append_mid _ _ _
      · have hsh : ("Server took too long to respond. Check that " ++
            PROVIDER_NAMES config.type ++ " is running at " ++ config.baseUrl ++ ".") =
            "Server took too long to respond. Check that " ++ PROVIDER_NAMES config.type ++
              (" is running at " ++ config.baseUrl ++ ".") := by
          simp [String.append_assoc]
        rw [hsh]
        exact strContains_append_mid _ _ _
    · by_cases h1 : e.isDOMException = true ∧ e.name = "TimeoutError"
      · have : translateFetchError e config =
            "Server took too long to respond. Check that " ++ PROVIDER_NAMES config.type ++
              " is running at " ++ config.baseUrl ++ "." := by
          unfold translateFetchError
          rw [if_pos h1]
        rw [this]
        constructor
        · have hsh : ("Server took too long to respond. Check that " ++
              PROVIDER_NAMES config.type ++ " is running at " ++ config.baseUrl ++ ".") =
              ("Server took too long to respond. Check that " ++ PROVIDER_NAMES config.type ++
                " is running at ") ++ config.baseUrl ++ "." := by
            simp [String.append_assoc]
          rw [hsh]
          exact strContains_append_mid _ _ _
        · have hsh : ("Server took too long to respond. Check that " ++
              PROVIDER_NAMES config.type ++ " is running at " ++ config.baseUrl ++ ".") =
              "Server took too long to respond. Check that " ++ PROVIDER_NAMES config.type ++
                (" is running at " ++ config.baseUrl ++ ".") := by
            simp [String.append_assoc]
          rw [hsh]
          exact strContains_append_mid _ _ _
      · have : translateFetchError e config =
            "Server took too long to respond. Check that " ++ PROVIDER_NAMES config.type ++
              " is running at " ++ config.baseUrl ++ "." := by
          unfold translateFetchError
          rw [if_neg h1, if_pos h2]
        rw [this]
        constructor
        · have hsh : ("Server took too long to respond. Check that " ++
              PROVIDER_NAMES config.type ++ " is running at " ++ config.baseUrl ++ ".") =
              ("Server took too long to respond. Check that " ++ PROVIDER_NAMES config.type ++
                " is running at ") ++ config.baseUrl ++ "." := by
            simp [String.append_assoc]
          rw [hsh]
          exact strContains_append_mid _ _ _
        · have hsh : ("Server took too long to respond. Check that " ++
              PROVIDER_NAMES config.type ++ " is running at " ++ config.baseUrl ++ ".") =
              "Server took too long to respond. Check that " ++ PROVIDER_NAMES config.type ++
                (" is running at " ++ config.baseUrl ++ ".") := by
            simp [String.append_assoc]
          rw [hsh]
          exact strContains_append_mid _ _ _
  · intro hn1 hn2 hnet
    by_cases hcode : (if e.isError = true then e.causeCode else none) = some "ECONNREFUSED" ∨
        (e.isError = true ∧ strContains e.message "ECONNREFUSED" = true)
    · have : translateFetchError e config =
          "Server not running at " ++ config.baseUrl ++ ". Start your " ++
            PROVIDER_NAMES config.type ++ " server and try again." := by
        unfold translateFetchError
        rw [if_neg hn1, if_neg hn2, if_pos hnet, if_pos hcode]
      rw [this]
      constructor
      · have hsh : ("Server not running at " ++ config.baseUrl ++ ". Start your " ++
            PROVIDER_NAMES config.type ++ " server and try again.") =
            "Server not running at " ++ config.baseUrl ++
              (". Start your " ++ PROVIDER_NAMES config.type ++ " server and try again.") := by
          simp [String.append_assoc]
        rw [hsh]
        exact strContains_append_mid _ _ _
      · have hsh : ("Server not running at " ++ config.baseUrl ++ ". Start your " ++
            PROVIDER_NAMES config.type ++ " server and try again.") =
            ("Server not running at " ++ config.baseUrl ++ ". Start your ") ++
              PROVIDER_NAMES config.type ++ " server and try again." := by
          simp [String.append_assoc]
        rw [hsh]
        exact strContains_append_mid _ _ _
    · have : translateFetchError e config =
          "Cannot connect to " ++ PROVIDER_NAMES config.type ++ " at " ++ config.baseUrl ++
            " — is it running?" := by
        unfold translateFetchError
        rw [if_neg hn1, if_neg hn2, if_pos hnet, if_neg hcode]
      rw [this]
      constructor
      · have hsh : ("Cannot connect to " ++ PROVIDER_NAMES config.type ++ " at " ++
            config.baseUrl ++ " — is it running?") =
            ("Cannot connect to " ++ PROVIDER_NAMES config.type ++ " at ") ++
              config.baseUrl ++ " — is it running?" := by
          simp [String.append_assoc]
        rw [hsh]
        exact strContains_append_mid _ _ _
      · have hsh : ("Cannot connect to " ++ PROVIDER_NAMES config.type ++ " at " ++
            config.baseUrl ++ " — is it running?") =
            "Cannot connect to " ++ PROVIDER_NAMES config.type ++
              (" at " ++ config.baseUrl ++ " — is it running?") := by
          simp [String.append_assoc]
        rw [hsh]
        exact strContains_append_mid _ _ _
  · intro hn1 hn2 hn3
    unfold translateFetchError
    rw [if_neg hn1, if_neg hn2, if_neg hn3]

/-- C7 witness: a concrete timeout and a concrete connection-refused
error at the Ollama configuration both carry endpoint and provider. -/
theorem C7_classified_failures_witness :
    strContains
        (translateFetchError ⟨true, false, false, "TimeoutError", "timed out", none⟩
          ⟨.ollama, "http://localhost:11434"⟩)
        "http://localhost:11434" = true
    ∧ strContains
        (translateFetchError ⟨true, false, false, "TimeoutError", "timed out", none⟩
          ⟨.ollama, "http://localhost:11434"⟩)
        "Ollama" = true
    ∧ translateFetchError ⟨false, false, true, "Error", "Server returned 500 x", none⟩
        ⟨.ollama, "http://localhost:11434"⟩ = "Server returned 500 x" := by
  refine ⟨?_, ?_, ?_⟩
  · exact ((C7_classified_failures ⟨.ollama, "http://localhost:11434"⟩
      ⟨true, false, false, "TimeoutError", "timed out", none⟩).1 (Or.inl ⟨rfl, rfl⟩)).1
  · exact ((C7_classified_failures ⟨.ollama, "http://localhost:11434"⟩
      ⟨true, false, false, "TimeoutError", "timed out", none⟩).1 (Or.inl ⟨rfl, rfl⟩)).2
  · exact (C7_classified_failures ⟨.ollama, "http://localhost:11434"⟩
      ⟨false, false, true, "Error", "Server returned 500 x", none⟩).2.2
        (by simp) (by simp) (by decide)

/-- C8.  Message batches are transformed into the structured parts
representation only when at least one message carries image references;
a message without images passes through unmodified; a message with
images becomes an optional text part (present exactly when its text is
non-empty) followed by one part per image reference — the inline-encoded
image on a successful read, the visible placeholder text part on a
failed read — while the rest of the batch is still sent. -/
theorem C8_multimodal_preparation (rf : String → Option String)
    (msgs : List ChatMessage) (m : ChatMessage) :
    ((∀ m2 ∈ msgs, m2.images = []) → prepareMessagesForApi rf msgs = msgs.map .raw)
    ∧ ((∃ m2 ∈ msgs, m2.images ≠ []) →
        prepareMessagesForApi rf msgs = msgs.map (prepareOne rf))
    ∧ (m.images = [] → prepareOne rf m = .raw m)
    ∧ (m.images ≠ [] → prepareOne rf m =
        .rebuilt m.role (.parts
          ((if m.content = "" then [] else [MsgPart.text m.content]) ++
            m.images.map (encodeImagePart rf)))) := by
  refine ⟨?_, ?_, ?_, ?_⟩
  · intro h
    have hall : msgs.all (fun m2 => m2.images = []) = true := by
      rw [List.all_eq_true]
      intro m2 hm2
      simpa using h m2 hm2
    unfold prepareMessagesForApi
    rw [if_pos hall]
  · intro h
    obtain ⟨m2, hm2, hne⟩ := h
    have hall : ¬ (msgs.all (fun m2 => m2.images = []) = true) := by
      rw [List.all_eq_true]
      intro hforall
      exact hne (by simpa using hforall m2 hm2)
    unfold prepareMessagesForApi
    rw [if_neg hall]
  · intro h
    unfold prepareOne
    rw [if_pos h]
  · intro h
    have hparts : (if m.content = "" then [] else [MsgPart.text m.content]) ++
        m.images.map (encodeImagePart rf) ≠ [] := by
      intro hh
      rcases List.append_eq_nil.mp hh with ⟨-, hmap⟩
      exact h (List.map_eq_nil_iff.mp hmap)
    unfold prepareOne
    rw [if_neg h, if_neg hparts]

/-- A file reader that succeeds on `a.png` (base64 `QUJD`) and fails on
everything else. -/
def sampleReadFile : String → Option String :=
  fun p => if p = "a.png" then some "QUJD" else none

/-- A user message with one readable and one unreadable image. -/
def imgMsg : ChatMessage := ⟨Role.user, "look", ["a.png", "missing.png"], [], none⟩

/-- C8 witness at a concrete two-image message. -/
theorem C8_multimodal_preparation_witness :
    prepareMessagesForApi sampleReadFile [imgMsg] = [prepareOne sampleReadFile imgMsg]
    ∧ prepareOne sampleReadFile imgMsg =
        .rebuilt Role.user (.parts
          [MsgPart.text "look",
           MsgPart.imageUrl "data:image/png;base64,QUJD",
           MsgPart.text "[Image failed to load]"]) := by
  constructor
  · exact (C8_multimodal_preparation sampleReadFile [imgMsg] imgMsg).2.1
      ⟨imgMsg, by simp, by simp [imgMsg]⟩
  · have h := (C8_multimodal_preparation sampleReadFile [imgMsg] imgMsg).2.2.2
      (by simp [imgMsg])
    rw [h]
    rfl

/-! ### Store lemmas for the aliasing model -/

theorem storeGet_cons_zero (a : List ChatMessage) (t : Store) : storeGet (a :: t) 0 = a := rfl

theorem storeGet_cons_succ (a : List ChatMessage) (t : Store) (r : Nat) :
    storeGet (a :: t) (r + 1) = storeGet t r := rfl

theorem storeSet_cons_zero (a : List ChatMessage) (t : Store) (v : List ChatMessage) :
    storeSet (a :: t) 0 v = v :: t := rfl

theorem storeSet_cons_succ (a : List ChatMessage) (t : Store) (r : Nat)
    (v : List ChatMessage) : storeSet (a :: t) (r + 1) v = a :: storeSet t r v := rfl

theorem length_storeSet (h : Store) (r : Nat) (v : List ChatMessage) :
    (storeSet h r v).length = h.length := List.length_set h r v

theorem storeGet_set_same : ∀ (h : Store) (r : Nat) (v : List ChatMessage),
    r < h.length → storeGet (storeSet h r v) r = v := by
  intro h
  induction h with
  | nil => intro r v hr; simp at hr
  | cons a t ih =>
    intro r v hr
    cases r with
    | zero => rfl
    | succ r =>
      rw [storeSet_cons_succ, storeGet_cons_succ]
      exact ih r v (Nat.lt_of_succ_lt_succ hr)

theorem storeGet_set_other : ∀ (h : Store) (r r2 : Nat) (v : List ChatMessage),
    r2 ≠ r → storeGet (storeSet h r v) r2 = storeGet h r2 := by
  intro h
  induction h with
  | nil => intro r r2 v _; rfl
  | cons a t ih =>
    intro r r2 v hne
    cases r with
    | zero =>
      cases r2 with
      | zero => exact absurd rfl hne
      | succ r2 => rfl
    | succ r =>
      cases r2 with
      | zero => rfl
      | succ r2 =>
        rw [storeSet_cons_succ, storeGet_cons_succ, storeGet_cons_succ]
        exact ih r r2 v (fun hh => hne (by rw [hh]))

theorem length_storePush (h : Store) (r : Nat) (v : ChatMessage) :
    (storePush h r v).length = h.length := length_storeSet h r _

theorem storeGet_push_same (h : Store) (r : Nat) (v : ChatMessage) (hr : r < h.length) :
    storeGet (storePush h r v) r = storeGet h r ++ [v] :=
  storeGet_set_same h r _ hr

theorem storeGet_push_other (h : Store) (r r2 : Nat) (v : ChatMessage) (hne : r2 ≠ r) :
    storeGet (storePush h r v) r2 = storeGet h r2 :=
  storeGet_set_other h r r2 _ hne

theorem storeGet_append : ∀ (h l : Store) (r : Nat), r < h.length →
    storeGet (h ++ l) r = storeGet h r := by
  intro h
  induction h with
  | nil => intro l r hr; simp at hr
  | cons a t ih =>
    intro l r hr
    cases r with
    | zero => rfl
    | succ r =>
      rw [List.cons_append, storeGet_cons_succ, storeGet_cons_succ]
      exact ih l r (Nat.lt_of_succ_lt_succ hr)

theorem storeGet_append_len : ∀ (h : Store) (x : List ChatMessage) (l : Store),
    storeGet (h ++ x :: l) h.length = x := by
  intro h
  induction h with
  | nil => intro x l; rfl
  | cons a t ih =>
    intro x l
    rw [List.cons_append, List.length_cons, storeGet_cons_succ]
    exact ih x l

/-- Behaviour of the heap-level EXECUTING phase: the store keeps its
length, arrays other than the two being pushed are untouched, a
throwing phase reports the same error as the pure phase, and a
successful phase appends exactly the pure phase's messages to both
arrays. -/
theorem execPushLoop_spec (oracle : Json → SearchOutcome) (mRef tRef : Nat)
    (hne : mRef ≠ tRef) :
    ∀ (tcs : List ToolCall) (h : Store), mRef < h.length → tRef < h.length →
    ((execPushLoop oracle mRef tRef tcs h).1.length = h.length)
    ∧ (∀ r, r ≠ mRef → r ≠ tRef →
        storeGet (execPushLoop oracle mRef tRef tcs h).1 r = storeGet h r)
    ∧ (∀ e, toolResultsSeq oracle tcs = .error e →
        (execPushLoop oracle mRef tRef tcs h).2 = some e)
    ∧ (∀ ms, toolResultsSeq oracle tcs = .ok ms →
        (execPushLoop oracle mRef tRef tcs h).2 = none
        ∧ storeGet (execPushLoop oracle mRef tRef tcs h).1 mRef = storeGet h mRef ++ ms
        ∧ storeGet (execPushLoop oracle mRef tRef tcs h).1 tRef = storeGet h tRef ++ ms) := by
  intro tcs
  induction tcs with
  | nil =>
    intro h hm ht
    refine ⟨rfl, fun r _ _ => rfl, fun e he => by simp [toolResultsSeq] at he, ?_⟩
    intro ms hms
    have hms2 : ([] : List ChatMessage) = ms := by
      cases hms
      rfl
    subst hms2
    exact ⟨rfl, by simp [execPushLoop], by simp [execPushLoop]⟩
  | cons tc tcs ih =>
    intro h hm ht
    have hseqstep : toolResultsSeq oracle (tc :: tcs) =
        match executeTool oracle tc with
        | .error e => .error e
        | .ok r =>
          match toolResultsSeq oracle tcs with
          | .error e => .error e
          | .ok ms2 => .ok (toolMsgOf tc r :: ms2) := rfl
    have hplstep : execPushLoop oracle mRef tRef (tc :: tcs) h =
        match executeTool oracle tc with
        | .error e => (h, some e)
        | .ok r =>
          execPushLoop oracle mRef tRef tcs
            (storePush (storePush h mRef (toolMsgOf tc r)) tRef (toolMsgOf tc r)) := rfl
    cases he : executeTool oracle tc with
    | error e2 =>
      rw [hplstep, he]
      refine ⟨rfl, fun r _ _ => rfl, ?_, ?_⟩
      · intro e hseq
        rw [hseqstep, he] at hseq
        cases hseq
        rfl
      · intro ms hseq
        rw [hseqstep, he] at hseq
        cases hseq
    | ok r =>
      rw [hplstep, he]
      have hm1 : mRef < (storePush (storePush h mRef (toolMsgOf tc r)) tRef
          (toolMsgOf tc r)).length := by
        rw [length_storePush, length_storePush]; exact hm
      have ht1 : tRef < (storePush (storePush h mRef (toolMsgOf tc r)) tRef
          (toolMsgOf tc r)).length := by
        rw [length_storePush, length_storePush]; exact ht
      obtain ⟨ihlen, ihframe, iherr, ihok⟩ := ih
        (storePush (storePush h mRef (toolMsgOf tc r)) tRef (toolMsgOf tc r)) hm1 ht1
      have hgm : storeGet (storePush (storePush h mRef (toolMsgOf tc r)) tRef
          (toolMsgOf tc r)) mRef = storeGet h mRef ++ [toolMsgOf tc r] := by
        rw [storeGet_push_other _ _ _ _ hne, storeGet_push_same _ _ _ hm]
      have hgt : storeGet (storePush (storePush h mRef (toolMsgOf tc r)) tRef
          (toolMsgOf tc r)) tRef = storeGet h tRef ++ [toolMsgOf tc r] := by
        rw [storeGet_push_same _ _ _ (by rw [length_storePush]; exact ht),
          storeGet_push_other _ _ _ _ (fun hh => hne hh.symm)]
      refine ⟨by rw [ihlen, length_storePush, length_storePush], ?_, ?_, ?_⟩
      · intro r2 hrm hrt
        rw [ihframe r2 hrm hrt, storeGet_push_other _ _ _ _ hrt,
          storeGet_push_other _ _ _ _ hrm]
      · intro e hseq
        rw [hseqstep, he] at hseq
        cases hseq2 : toolResultsSeq oracle tcs with
        | error e3 =>
          rw [hseq2] at hseq
          cases hseq
          exact iherr _ hseq2
        | ok ms2 =>
          rw [hseq2] at hseq
          cases hseq
      · intro ms hseq
        rw [hseqstep, he] at hseq
        cases hseq2 : toolResultsSeq oracle tcs with
        | error e3 =>
          rw [hseq2] at hseq
          cases hseq
        | ok ms2 =>
          rw [hseq2] at hseq
          have hms : toolMsgOf tc r :: ms2 = ms := by
            cases hseq
            rfl
          subst hms
          obtain ⟨ho, hom, hot⟩ := ihok ms2 hseq2
          refine ⟨ho, ?_, ?_⟩
          · rw [hom, hgm, List.append_assoc]
            rfl
          · rw [hot, hgt, List.append_assoc]
            rfl

/-- One unfolding step of the store-level loop. -/
theorem runLoopStore_step (script : Nat → ChatResponse) (oracle : Json → SearchOutcome)
    (tools : List ToolDecl) (fuel round : Nat) (h : Store) (mRef tRef : Nat)
    (trace : List CallEvent) :
    runLoopStore script oracle tools (fuel + 1) round h mRef tRef trace =
      match (script round).choices with
      | [] => (h, ⟨trace ++ [.withTools (storeGet h mRef) tools], .err "No response from model"⟩)
      | ch :: _ =>
        if ch.finish_reason = "tool_calls" ∧ ch.message.tool_calls ≠ [] then
          match execPushLoop oracle mRef tRef ch.message.tool_calls
              (storePush (storePush h mRef (assistantMsgOf ch)) tRef (assistantMsgOf ch)) with
          | (h2, some e) =>
            (h2, ⟨trace ++ [.withTools (storeGet h mRef) tools], .err e⟩)
          | (h2, none) =>
            runLoopStore script oracle tools fuel (round + 1) h2 mRef tRef
              (trace ++ [.withTools (storeGet h mRef) tools])
        else
          (h, ⟨trace ++ [.withTools (storeGet h mRef) tools,
                  .streamCall (storeGet h mRef) none],
            .ok (storeGet h mRef) (storeGet h tRef)⟩) := rfl

/-- The store-level loop computes exactly the pure loop on the contents
of its two arrays, and never touches any other array. -/
theorem runLoopStore_spec (script : Nat → ChatResponse) (oracle : Json → SearchOutcome)
    (tools : List ToolDecl) :
    ∀ (fuel round : Nat) (h : Store) (mRef tRef : Nat) (trace : List CallEvent),
    mRef ≠ tRef → mRef < h.length → tRef < h.length →
    (runLoopStore script oracle tools fuel round h mRef tRef trace).2 =
        runLoop script oracle tools fuel round (storeGet h mRef) (storeGet h tRef) trace
    ∧ ∀ r, r ≠ mRef → r ≠ tRef →
        storeGet (runLoopStore script oracle tools fuel round h mRef tRef trace).1 r =
          storeGet h r := by
  intro fuel
  induction fuel with
  | zero =>
    intro round h mRef tRef trace _ _ _
    exact ⟨rfl, fun r _ _ => rfl⟩
  | succ fuel ih =>
    intro round h mRef tRef trace hne hm ht
    cases hch : (script round).choices with
    | nil =>
      rw [runLoopStore_step, runLoop_step, hch]
      exact ⟨rfl, fun r _ _ => rfl⟩
    | cons ch rest =>
      by_cases hc : ch.finish_reason = "tool_calls" ∧ ch.message.tool_calls ≠ []
      · have hstep : runLoopStore script oracle tools (fuel + 1) round h mRef tRef trace =
            match execPushLoop oracle mRef tRef ch.message.tool_calls
                (storePush (storePush h mRef (assistantMsgOf ch)) tRef (assistantMsgOf ch)) with
            | (h2, some e) =>
              (h2, ⟨trace ++ [.withTools (storeGet h mRef) tools], .err e⟩)
            | (h2, none) =>
              runLoopStore script oracle tools fuel (round + 1) h2 mRef tRef
                (trace ++ [.withTools (storeGet h mRef) tools]) := by
          rw [runLoopStore_step, hch]
          exact if_pos hc
        have hm0 : mRef < (storePush (storePush h mRef (assistantMsgOf ch)) tRef
            (assistantMsgOf ch)).length := by
          rw [length_storePush, length_storePush]; exact hm
        have ht0 : tRef < (storePush (storePush h mRef (assistantMsgOf ch)) tRef
            (assistantMsgOf ch)).length := by
          rw [length_storePush, length_storePush]; exact ht
        have hgm : storeGet (storePush (storePush h mRef (assistantMsgOf ch)) tRef
            (assistantMsgOf ch)) mRef = storeGet h mRef ++ [assistantMsgOf ch] := by
          rw [storeGet_push_other _ _ _ _ hne, storeGet_push_same _ _ _ hm]
        have hgt : storeGet (storePush (storePush h mRef (assistantMsgOf ch)) tRef
            (assistantMsgOf ch)) tRef = storeGet h tRef ++ [assistantMsgOf ch] := by
          rw [storeGet_push_same _ _ _ (by rw [length_storePush]; exact ht),
            storeGet_push_other _ _ _ _ (fun hh => hne hh.symm)]
        obtain ⟨hplen, hpframe, hperr, hpok⟩ := execPushLoop_spec oracle mRef tRef hne
          ch.message.tool_calls
          (storePush (storePush h mRef (assistantMsgOf ch)) tRef (assistantMsgOf ch))
          hm0 ht0
        rcases hpl : execPushLoop oracle mRef tRef ch.message.tool_calls
            (storePush (storePush h mRef (assistantMsgOf ch)) tRef (assistantMsgOf ch))
          with ⟨h2, o2⟩
        rw [hpl] at hplen hpframe hperr hpok
        simp only at hplen hpframe hperr hpok
        rw [hstep, hpl]
        cases hseq : toolResultsSeq oracle ch.message.tool_calls with
        | error e =>
          have ho2 : o2 = some e := hperr e hseq
          subst ho2
          rw [runLoop_step_toolerr script oracle tools fuel round _ _ trace ch rest e
            hch hc hseq]
          refine ⟨rfl, ?_⟩
          intro r hrm hrt
          rw [hpframe r hrm hrt, storeGet_push_other _ _ _ _ hrt,
            storeGet_push_other _ _ _ _ hrm]
        | ok ms =>
          obtain ⟨ho2, hom, hot⟩ := hpok ms hseq
          subst ho2
          have hom2 : storeGet h2 mRef = storeGet h mRef ++ (assistantMsgOf ch :: ms) := by
            rw [hom, hgm, List.append_assoc]
            rfl
          have hot2 : storeGet h2 tRef = storeGet h tRef ++ (assistantMsgOf ch :: ms) := by
            rw [hot, hgt, List.append_assoc]
            rfl
          have hm2 : mRef < h2.length := by rw [hplen]; exact hm0
          have ht2 : tRef < h2.length := by rw [hplen]; exact ht0
          obtain ⟨ihres, ihframe⟩ := ih (round + 1) h2 mRef tRef
            (trace ++ [.withTools (storeGet h mRef) tools]) hne hm2 ht2
          constructor
          · rw [ihres, hom2, hot2,
              runLoop_step_tool script oracle tools fuel round _ _ trace ch rest ms
                hch hc hseq]
          · intro r hrm hrt
            rw [ihframe r hrm hrt, hpframe r hrm hrt, storeGet_push_other _ _ _ _ hrt,
              storeGet_push_other _ _ _ _ hrm]
      · have hstep : runLoopStore script oracle tools (fuel + 1) round h mRef tRef trace =
            (h, ⟨trace ++ [.withTools (storeGet h mRef) tools,
                    .streamCall (storeGet h mRef) none],
              .ok (storeGet h mRef) (storeGet h tRef)⟩) := by
          rw [runLoopStore_step, hch]
          exact if_neg hc
        rw [hstep, runLoop_step_exit script oracle tools fuel round _ _ trace ch rest hch hc]
        exact ⟨rfl, fun r _ _ => rfl⟩

/-- A plain user message. -/
def userMsg : ChatMessage := ⟨Role.user, "hi", [], [], none⟩

/-- C9, counterexample.  After a turn with two tool rounds, the array
the caller passed in still holds exactly the original messages: it does
not contain the synthesized assistant/tool messages, although they are
non-empty — contradicting in-place mutation of the caller's list. -/
theorem C9_counterexample :
    storeGet (runWithToolsStore twoRoundScript nullOracle [[userMsg]] 0 []).1 0 = [userMsg]
    ∧ toolMessagesOf (runWithToolsStore twoRoundScript nullOracle [[userMsg]] 0 []).2 ≠ []
    ∧ storeGet (runWithToolsStore twoRoundScript nullOracle [[userMsg]] 0 []).1 0 ≠
        [userMsg] ++
          toolMessagesOf (runWithToolsStore twoRoundScript nullOracle [[userMsg]] 0 []).2 := by
  refine ⟨rfl, by decide, by decide⟩

/-- C9, amended.  The orchestrator copies the caller-supplied message
list into a fresh array on entry and appends the synthesized messages to
the copy as rounds execute; the caller's array is left unchanged, and
the turn behaves exactly as the pure model on the copied contents (so
the finalization list is the original messages plus the synthesized
ones, handed back in `toolMessages`). -/
theorem C9_copy_not_in_place (script : Nat → ChatResponse) (oracle : Json → SearchOutcome)
    (h : Store) (reqRef : Nat) (tools : List ToolDecl) (hr : reqRef < h.length) :
    storeGet (runWithToolsStore script oracle h reqRef tools).1 reqRef = storeGet h reqRef
    ∧ (runWithToolsStore script oracle h reqRef tools).2 =
        runWithTools script oracle (storeGet h reqRef) tools := by
  have hne : h.length ≠ h.length + 1 := by omega
  have hlen : (h ++ [storeGet h reqRef] ++ [[]]).length = h.length + 2 := by simp
  have hm : h.length < (h ++ [storeGet h reqRef] ++ [[]]).length := by omega
  have ht : h.length + 1 < (h ++ [storeGet h reqRef] ++ [[]]).length := by omega
  obtain ⟨hres, hframe⟩ := runLoopStore_spec script oracle tools 3 0
    (h ++ [storeGet h reqRef] ++ [[]]) h.length (h.length + 1) [] hne hm ht
  have hgm : storeGet (h ++ [storeGet h reqRef] ++ [[]]) h.length = storeGet h reqRef := by
    rw [List.append_assoc]
    exact storeGet_append_len h (storeGet h reqRef) [[]]
  have hgt : storeGet (h ++ [storeGet h reqRef] ++ [[]]) (h.length + 1) = [] := by
    have : (h ++ [storeGet h reqRef]).length = h.length + 1 := by simp
    rw [← this]
    exact storeGet_append_len (h ++ [storeGet h reqRef]) [] []
  constructor
  · rw [runWithToolsStore, hframe reqRef (by omega) (by omega)]
    rw [List.append_assoc]
    exact storeGet_append h _ reqRef hr
  · rw [runWithToolsStore, hres, hgm, hgt, runWithTools]

/-- C9 witness: with one caller array holding one user message, the
array is untouched and the store-level run agrees with the pure model. -/
theorem C9_copy_not_in_place_witness :
    storeGet (runWithToolsStore stopScript nullOracle [[userMsg]] 0 []).1 0 = [userMsg]
    ∧ (runWithToolsStore stopScript nullOracle [[userMsg]] 0 []).2 =
        runWithTools stopScript nullOracle [userMsg] [] := by
  have h := C9_copy_not_in_place stopScript nullOracle [[userMsg]] 0 [] (by decide)
  exact ⟨h.1, h.2⟩
